import Mathlib

/-!
Shallow embedding of the linkerd2 tap CLI renderer (`cli/cmd/tap.go`):
the tap event data model, the address codec, the event classifier,
the line and JSON renderers, and the stream consumer loop, together
with theorems settling the specification claims.

Machine integers of the source (uint32, uint64, int32, int64) are
modelled as `Nat` / `Int`; none of the operations involved overflow
their Go types on the value ranges the protobuf guarantees, and where
a claim needs a bound it is stated explicitly.
-/

namespace Tap

/-! ## Numeric text helpers

Decimal and hexadecimal printing as done by Go (`strconv.Itoa`,
`net`-package `appendHex` / `uitoa`): most significant digit first,
no leading zeros, lowercase hex, a single `0` for zero. -/

/-- Prints the base-`base` digits of `n`, most significant first, in front of
`acc`; `fuel` bounds the recursion and is adequate whenever `n ≤ fuel`. -/
def natToCharsAux (base : Nat) : Nat → Nat → List Char → List Char
  | 0, _, acc => acc
  | fuel + 1, n, acc =>
    if n = 0 then acc else natToCharsAux base fuel (n / base) (Nat.digitChar (n % base) :: acc)

/-- `n` printed in base `base` (2 ≤ base ≤ 16), as Go prints integers:
no leading zeros, lowercase hex digits, `"0"` for zero. -/
def natToChars (base n : Nat) : List Char :=
  if n = 0 then ['0'] else natToCharsAux base n n []

/-- Joins chunks of characters with a single separator character between
consecutive chunks. -/
def intercalateChar (sep : Char) : List (List Char) → List Char
  | [] => []
  | [x] => x
  | x :: y :: rest => x ++ sep :: intercalateChar sep (y :: rest)

/-! ## Protobuf data model (`pb` types used by `tap.go`)

Pointers of the Go generated code are `Option`; a protobuf `oneof` is an
`Option` of an inductive with one constructor per variant, so the
generated nil-safe getters become total Lean functions. -/

/-- The `oneof ip` payload of `pb.IPAddress`: an IPv4 `uint32` or an IPv6
pair of `uint64` values. -/
inductive IPValue
  | ipv4 (value : Nat)
  | ipv6 (first last : Nat)
deriving DecidableEq, Repr

/-- `pb.IPAddress`: carries at most one address family. -/
structure IPAddress where
  ip : Option IPValue
deriving DecidableEq, Repr

/-- `(*pb.IPAddress).GetIpv6`: the (first, last) pair when the IPv6 variant
is set, nil otherwise. -/
def getIpv6 : Option IPAddress → Option (Nat × Nat)
  | some ⟨some (.ipv6 first last)⟩ => some (first, last)
  | _ => none

/-- `(*pb.IPAddress).GetIpv4`: the IPv4 value when that variant is set,
0 otherwise. -/
def getIpv4 : Option IPAddress → Nat
  | some ⟨some (.ipv4 value)⟩ => value
  | _ => 0

/-! ## Address codec (`getIPAddress` and the `net.IP.String` it calls) -/

/-- `binary.BigEndian.PutUint32`: the four big-endian bytes of a `uint32`. -/
def bytesBE4 (n : Nat) : List Nat :=
  [n / 2 ^ 24 % 256, n / 2 ^ 16 % 256, n / 2 ^ 8 % 256, n % 256]

/-- `binary.BigEndian.PutUint64`: the eight big-endian bytes of a `uint64`. -/
def bytesBE8 (n : Nat) : List Nat :=
  [n / 2 ^ 56 % 256, n / 2 ^ 48 % 256, n / 2 ^ 40 % 256, n / 2 ^ 32 % 256,
   n / 2 ^ 24 % 256, n / 2 ^ 16 % 256, n / 2 ^ 8 % 256, n % 256]

/-- `net.IP.To4`: a 4-byte address is returned as is; a 16-byte
IPv4-mapped address (ten zero bytes then `0xff 0xff`) yields its last four
bytes; anything else is nil. -/
def ipTo4 (p : List Nat) : Option (List Nat) :=
  if p.length = 4 then some p
  else if p.length = 16 ∧ (p.take 10).all (· = 0) ∧ p.getD 10 0 = 255 ∧ p.getD 11 0 = 255 then
    some (p.drop 12)
  else none

/-- The 16-bit groups of a 16-byte IPv6 address, as `net.IP.String` reads
the byte pairs `p[i]<<8 | p[i+1]`. -/
def ipGroups : List Nat → List Nat
  | a :: b :: rest => (a * 256 + b) :: ipGroups rest
  | _ => []

/-- One-pass scan collecting the maximal runs of zero groups as
(start index, length) pairs, in order — the candidate `[i, j)` windows the
zero-run loop of `net.IP.String` examines. `i` is the index of the head of
the remaining list and `cur` the zero run currently open, if any. -/
def zeroRunsAux : List Nat → Nat → Option (Nat × Nat) → List (Nat × Nat)
  | [], _, cur =>
    match cur with
    | some r => [r]
    | none => []
  | g :: t, i, cur =>
    if g = 0 then
      match cur with
      | some (s, l) => zeroRunsAux t (i + 1) (some (s, l + 1))
      | none => zeroRunsAux t (i + 1) (some (i, 1))
    else
      match cur with
      | some r => r :: zeroRunsAux t (i + 1) none
      | none => zeroRunsAux t (i + 1) none

/-- All maximal runs of zero groups of the list. -/
def zeroRuns (gs : List Nat) : List (Nat × Nat) :=
  zeroRunsAux gs 0 none

/-- The run the `net.IP.String` loop keeps: the first run strictly longer
than every earlier one (`j-i > e1-e0`). -/
def pickLongestRun (runs : List (Nat × Nat)) : Option (Nat × Nat) :=
  runs.foldl
    (fun best r =>
      match best with
      | none => some r
      | some b => if r.2 > b.2 then some r else best)
    none

/-- The `e0/e1` selection of `net.IP.String` in group units: the leftmost
longest run of zero groups, discarded when it covers a single group
(`e1-e0 <= 2` bytes resets the compression window). -/
def findCompress (gs : List Nat) : Option (Nat × Nat) :=
  match pickLongestRun (zeroRuns gs) with
  | some (s, l) => if 2 ≤ l then some (s, l) else none
  | none => none

/-- The RFC 5952 text of the 16-bit groups, as built by the printing loop
of `net.IP.String`: hex groups joined by `:`, with the compressed window
(when any) rendered as `::` standing between the remaining groups. -/
def renderGroups (gs : List Nat) : List Char :=
  match findCompress gs with
  | none => intercalateChar ':' (gs.map (natToChars 16))
  | some (s, l) =>
      intercalateChar ':' ((gs.take s).map (natToChars 16)) ++
        ':' :: ':' :: intercalateChar ':' ((gs.drop (s + l)).map (natToChars 16))

/-- Two-digit lowercase hex of one byte, as the `net` package `hexString`
prints each byte of an invalid-length address. -/
def byteHex2 (b : Nat) : List Char :=
  [Nat.digitChar (b / 16 % 16), Nat.digitChar (b % 16)]

/-- Dotted-decimal text of a byte list (used on the 4 bytes `To4` returns). -/
def dottedDecimal (q : List Nat) : List Char :=
  intercalateChar '.' (q.map (natToChars 10))

/-- `net.IP.String`: `"<nil>"` for an empty address, dotted decimal for a
4-byte or IPv4-mapped address, RFC 5952 text for a 16-byte address, and a
`?`-prefixed hex dump for any other length. -/
def netIPString (p : List Nat) : String :=
  if p.length = 0 then "<nil>"
  else
    match ipTo4 p with
    | some q => String.mk (dottedDecimal q)
    | none =>
        if p.length = 16 then String.mk (renderGroups (ipGroups p))
        else String.mk ('?' :: (p.map byteHex2).flatten)

/-- `getIPAddress` from `tap.go`: build the big-endian byte sequence of
whichever address family is present (nothing when neither an IPv6 pair nor
a nonzero IPv4 value is) and format it with `net.IP.String`. -/
def getIPAddress (ip : Option IPAddress) : String :=
  let b : List Nat :=
    match getIpv6 ip with
    | some (first, last) => bytesBE8 first ++ bytesBE8 last
    | none => if getIpv4 ip ≠ 0 then bytesBE4 (getIpv4 ip) else []
  netIPString b

example : getIPAddress (some ⟨some (.ipv4 (10 * 2 ^ 24 + 1))⟩) = "10.0.0.1" := by decide
example : getIPAddress (some ⟨some (.ipv4 0)⟩) = "<nil>" := by decide
example : getIPAddress none = "<nil>" := by decide
example : getIPAddress (some ⟨some (.ipv6 0 1)⟩) = "::1" := by decide
example : getIPAddress (some ⟨some (.ipv6 0 0)⟩) = "::" := by decide
example : getIPAddress (some ⟨some (.ipv6 (2 ^ 62) 1)⟩) = "4000::1" := by decide
example : getIPAddress (some ⟨some (.ipv6 0 (0xffff * 2 ^ 32 + 0x0a000001))⟩) = "10.0.0.1" := by
  decide
example : getIPAddress (some ⟨some (.ipv6 1 (2 ^ 63))⟩) = "::1:8000:0:0:0" := by decide
example : getIPAddress (some ⟨some (.ipv6 (2 ^ 16) (2 ^ 63))⟩) = "0:0:1:0:8000::" := by decide

/-! ## Protobuf tap event model

The `pb` message types referenced by `tap.go` are generated from this
repository and are not part of the source fragment; they are modelled from
the data model of the spec (section 3: PeerAddress, PeerLabelSet,
StreamID, TapEvent with its three lifecycle variants and the nested
end-of-stream union). -/

/-- Modelled from the spec: the StreamID pair (base, stream) of the
`pb.TapEvent_Http_StreamId` message. -/
structure TapEvent_Http_StreamId where
  base : Nat
  stream : Nat
deriving DecidableEq, Repr

/-- `GetBase` of a possibly-nil stream id. -/
def getBase (s : Option TapEvent_Http_StreamId) : Nat :=
  (s.map (·.base)).getD 0

/-- `GetStream` of a possibly-nil stream id. -/
def getStream (s : Option TapEvent_Http_StreamId) : Nat :=
  (s.map (·.stream)).getD 0

/-- Modelled from the spec: the registered HTTP method enum of
`pb.HttpMethod`; GET is the zero value. -/
inductive HttpMethod_Registered
  | GET
  | POST
  | PUT
  | DELETE
  | PATCH
  | OPTIONS
  | CONNECT
  | HEAD
  | TRACE
deriving DecidableEq, Repr

/-- The generated `String()` name of a registered method value. -/
def HttpMethod_Registered.toName : HttpMethod_Registered → String
  | .GET => "GET"
  | .POST => "POST"
  | .PUT => "PUT"
  | .DELETE => "DELETE"
  | .PATCH => "PATCH"
  | .OPTIONS => "OPTIONS"
  | .CONNECT => "CONNECT"
  | .HEAD => "HEAD"
  | .TRACE => "TRACE"

/-- Modelled from the spec: the `oneof type` of `pb.HttpMethod` — a
registered method or a free-form unregistered one. -/
inductive HttpMethod_Type
  | registered (r : HttpMethod_Registered)
  | unregistered (s : String)
deriving DecidableEq, Repr

/-- Modelled from the spec: `pb.HttpMethod`. -/
structure HttpMethod where
  type : Option HttpMethod_Type
deriving DecidableEq, Repr

/-- `(*pb.HttpMethod).GetRegistered`: the registered value when that
variant is set, the zero enum value (GET) otherwise — per the spec only
the registered enum name is honored. -/
def getRegistered : Option HttpMethod → HttpMethod_Registered
  | some ⟨some (.registered r)⟩ => r
  | _ => .GET

/-- Modelled from the spec: the registered scheme enum of `pb.Scheme`. -/
inductive Scheme_Registered
  | HTTP
  | HTTPS
deriving DecidableEq, Repr

/-- Modelled from the spec: the `oneof type` of `pb.Scheme`. -/
inductive Scheme_Type
  | registered (r : Scheme_Registered)
  | unregistered (s : String)
deriving DecidableEq, Repr

/-- Modelled from the spec: `pb.Scheme`. -/
structure Scheme where
  type : Option Scheme_Type
deriving DecidableEq, Repr

/-- The protobuf well-known `duration.Duration`: seconds (int64) and
nanoseconds (int32). -/
structure Duration where
  seconds : Int
  nanos : Int
deriving DecidableEq, Repr

/-- `GetNanos` of a possibly-nil duration. -/
def getNanos (d : Option Duration) : Int :=
  (d.map (·.nanos)).getD 0

/-- `GetSeconds` of a possibly-nil duration. -/
def getSeconds (d : Option Duration) : Int :=
  (d.map (·.seconds)).getD 0

/-- Modelled from the spec: the RequestInit lifecycle variant — StreamID,
method, scheme, authority, path. -/
structure TapEvent_Http_RequestInit where
  id : Option TapEvent_Http_StreamId
  method : Option HttpMethod
  scheme : Option Scheme
  authority : String
  path : String
deriving DecidableEq, Repr

/-- Modelled from the spec: the ResponseInit lifecycle variant — StreamID,
elapsed duration since the matching RequestInit, HTTP status code. -/
structure TapEvent_Http_ResponseInit where
  id : Option TapEvent_Http_StreamId
  sinceRequestInit : Option Duration
  httpStatus : Nat
deriving DecidableEq, Repr

/-- Modelled from the spec: the end-of-stream outcome union of `pb.Eos` —
a gRPC status code or a reset error code. -/
inductive Eos_End
  | grpcStatusCode (code : Nat)
  | resetErrorCode (code : Nat)
deriving DecidableEq, Repr

/-- Modelled from the spec: `pb.Eos`; carrying no variant means "no
further detail". -/
structure Eos where
  eosEnd : Option Eos_End
deriving DecidableEq, Repr

/-- `(*pb.Eos).GetGrpcStatusCode`: the code when the gRPC variant is set,
0 otherwise. -/
def getGrpcStatusCode : Option Eos → Nat
  | some ⟨some (.grpcStatusCode c)⟩ => c
  | _ => 0

/-- `(*pb.Eos).GetResetErrorCode`: the code when the reset variant is set,
0 otherwise. -/
def getResetErrorCode : Option Eos → Nat
  | some ⟨some (.resetErrorCode c)⟩ => c
  | _ => 0

/-- `(*pb.Eos).GetEnd`: the `oneof end` payload. -/
def getEosEnd (e : Option Eos) : Option Eos_End :=
  e.bind (·.eosEnd)

/-- Modelled from the spec: the ResponseEnd lifecycle variant — StreamID,
both elapsed durations, response byte count, end-of-stream outcome. -/
structure TapEvent_Http_ResponseEnd where
  id : Option TapEvent_Http_StreamId
  sinceRequestInit : Option Duration
  sinceResponseInit : Option Duration
  responseBytes : Nat
  eos : Option Eos
deriving DecidableEq, Repr

/-- Modelled from the spec: the `oneof event` of `pb.TapEvent_Http` —
exactly one of the three lifecycle variants. -/
inductive TapEvent_Http_Event
  | requestInit (r : TapEvent_Http_RequestInit)
  | responseInit (r : TapEvent_Http_ResponseInit)
  | responseEnd (r : TapEvent_Http_ResponseEnd)
deriving DecidableEq, Repr

/-- Modelled from the spec: `pb.TapEvent_Http`. -/
structure TapEvent_Http where
  event : Option TapEvent_Http_Event
deriving DecidableEq, Repr

/-- `(*pb.TapEvent_Http).GetRequestInit`: non-nil exactly when the
RequestInit variant is carried. -/
def getRequestInit : Option TapEvent_Http → Option TapEvent_Http_RequestInit
  | some ⟨some (.requestInit r)⟩ => some r
  | _ => none

/-- `(*pb.TapEvent_Http).GetResponseInit`: non-nil exactly when the
ResponseInit variant is carried. -/
def getResponseInit : Option TapEvent_Http → Option TapEvent_Http_ResponseInit
  | some ⟨some (.responseInit r)⟩ => some r
  | _ => none

/-- `(*pb.TapEvent_Http).GetResponseEnd`: non-nil exactly when the
ResponseEnd variant is carried. -/
def getResponseEnd : Option TapEvent_Http → Option TapEvent_Http_ResponseEnd
  | some ⟨some (.responseEnd r)⟩ => some r
  | _ => none

/-- Modelled from the spec: `pb.TcpAddress` — a PeerAddress plus port. -/
structure TcpAddress where
  ip : Option IPAddress
  port : Nat
deriving DecidableEq, Repr

/-- `GetIp` of a possibly-nil TCP address. -/
def getIp (a : Option TcpAddress) : Option IPAddress :=
  a.bind (·.ip)

/-- `GetPort` of a possibly-nil TCP address. -/
def getPort (a : Option TcpAddress) : Nat :=
  (a.map (·.port)).getD 0

/-- Modelled from the spec: `pb.TapEvent_EndpointMeta` — a PeerLabelSet.
The Go label map may itself be nil; it is modelled as an association
list wrapped in `Option`, looked up by first match. -/
structure TapEvent_EndpointMeta where
  labels : Option (List (String × String))
deriving DecidableEq, Repr

/-- `GetLabels` of possibly-nil endpoint metadata: the label map, nil when
the metadata or the map is nil. -/
def getLabels (m : Option TapEvent_EndpointMeta) : Option (List (String × String)) :=
  m.bind (·.labels)

/-- A Go map read `m[k]` on a possibly-nil label map: the mapped value, or
the empty string when the key is absent. -/
def mapGet (ls : Option (List (String × String))) (k : String) : String :=
  ((ls.getD []).lookup k).getD ""

/-- A Go two-valued map read `_, ok := m[k]` on a possibly-nil label map. -/
def mapHas (ls : Option (List (String × String))) (k : String) : Bool :=
  ((ls.getD []).lookup k).isSome

/-- Modelled from the spec: the proxy-direction enum
{UNKNOWN, INBOUND, OUTBOUND} of `pb.TapEvent`. -/
inductive TapEvent_ProxyDirection
  | UNKNOWN
  | INBOUND
  | OUTBOUND
deriving DecidableEq, Repr

/-- The generated `String()` name of a proxy direction. -/
def TapEvent_ProxyDirection.toName : TapEvent_ProxyDirection → String
  | .UNKNOWN => "UNKNOWN"
  | .INBOUND => "INBOUND"
  | .OUTBOUND => "OUTBOUND"

/-- Modelled from the spec: `pb.TapEvent` — source and destination peers
with their label sets, route labels, proxy direction, and the HTTP
lifecycle payload. -/
structure TapEvent where
  source : Option TcpAddress
  destination : Option TcpAddress
  sourceMeta : Option TapEvent_EndpointMeta
  destinationMeta : Option TapEvent_EndpointMeta
  routeMeta : Option TapEvent_EndpointMeta
  proxyDirection : TapEvent_ProxyDirection
  http : Option TapEvent_Http
deriving DecidableEq, Repr

/-- `(*pb.TapEvent).GetHttp().GetEvent()`: the lifecycle payload, if any. -/
def getHttpEvent (e : TapEvent) : Option TapEvent_Http_Event :=
  e.http.bind (·.event)

/-! ## Display model (`tap.go` lowercase structs) and the classifier -/

/-- The display `streamID` record of `tap.go`. -/
structure streamID where
  Base : Nat
  Stream : Nat
deriving DecidableEq, Repr

/-- The display `requestInitEvent` record of `tap.go`. -/
structure requestInitEvent where
  ID : Option streamID
  Method : Option HttpMethod
  Scheme : Option Scheme
  Authority : String
  Path : String
deriving DecidableEq, Repr

/-- The display `responseInitEvent` record of `tap.go`. -/
structure responseInitEvent where
  ID : Option streamID
  SinceRequestInit : Option Duration
  HTTPStatus : Nat
deriving DecidableEq, Repr

/-- The display `responseEndEvent` record of `tap.go`. -/
structure responseEndEvent where
  ID : Option streamID
  SinceRequestInit : Option Duration
  SinceResponseInit : Option Duration
  ResponseBytes : Nat
  GrpcStatusCode : Nat
  ResetErrorCode : Nat
deriving DecidableEq, Repr

/-- The display `endpoint` record of `tap.go`. -/
structure endpoint where
  IP : String
  Port : Nat
  Metadata : Option (List (String × String))
deriving DecidableEq, Repr

/-- The display `tapEvent` record of `tap.go`. -/
structure tapEvent where
  Source : Option endpoint
  Destination : Option endpoint
  RouteMeta : Option (List (String × String))
  ProxyDirection : String
  RequestInitEvent : Option requestInitEvent
  ResponseInitEvent : Option responseInitEvent
  ResponseEndEvent : Option responseEndEvent
deriving DecidableEq, Repr

/-- `getRequestInitEvent` from `tap.go`: maps a RequestInit payload to its
display sub-record, nil when the payload is not a RequestInit. -/
def getRequestInitEvent (pubEv : Option TapEvent_Http) : Option requestInitEvent :=
  match getRequestInit pubEv with
  | some reqI =>
      some
        { ID := some ⟨getBase reqI.id, getStream reqI.id⟩
          Method := reqI.method
          Scheme := reqI.scheme
          Authority := reqI.authority
          Path := reqI.path }
  | none => none

/-- `getResponseInitEvent` from `tap.go`. -/
def getResponseInitEvent (pubEv : Option TapEvent_Http) : Option responseInitEvent :=
  match getResponseInit pubEv with
  | some resI =>
      some
        { ID := some ⟨getBase resI.id, getStream resI.id⟩
          SinceRequestInit := resI.sinceRequestInit
          HTTPStatus := resI.httpStatus }
  | none => none

/-- `getResponseEndEvent` from `tap.go`: note the two end-of-stream fields
are filled from the nil-safe `oneof` getters, so the one not carried by
the outcome is 0. -/
def getResponseEndEvent (pubEv : Option TapEvent_Http) : Option responseEndEvent :=
  match getResponseEnd pubEv with
  | some resE =>
      some
        { ID := some ⟨getBase resE.id, getStream resE.id⟩
          SinceRequestInit := resE.sinceRequestInit
          SinceResponseInit := resE.sinceResponseInit
          ResponseBytes := resE.responseBytes
          GrpcStatusCode := getGrpcStatusCode resE.eos
          ResetErrorCode := getResetErrorCode resE.eos }
  | none => none

/-- `mapPublicToDisplayTapEvent` from `tap.go`: the Event Classifier. -/
def mapPublicToDisplayTapEvent (event : TapEvent) : tapEvent :=
  let sip := getIPAddress (getIp event.source)
  let sp := getPort event.source
  let s : endpoint := { IP := sip, Port := sp, Metadata := getLabels event.sourceMeta }
  let dip := getIPAddress (getIp event.destination)
  let dp := getPort event.destination
  let d : endpoint := { IP := dip, Port := dp, Metadata := getLabels event.destinationMeta }
  let rm := getLabels event.routeMeta
  let pdir := event.proxyDirection.toName
  { Source := some s
    Destination := some d
    RouteMeta := rm
    ProxyDirection := pdir
    RequestInitEvent := getRequestInitEvent event.http
    ResponseInitEvent := getResponseInitEvent event.http
    ResponseEndEvent := getResponseEndEvent event.http }

/-! ## Line renderer (`renderTapEvent` and its helpers) -/

/-- The `peer` struct of `tap.go`. -/
structure peer where
  address : Option TcpAddress
  labels : Option (List (String × String))
  direction : String
deriving DecidableEq, Repr

/-- `src` from `tap.go`: the source peer of a TapEvent. -/
def src (event : TapEvent) : peer :=
  { address := event.source
    labels := getLabels event.sourceMeta
    direction := "src" }

/-- `dst` from `tap.go`: the destination peer of a TapEvent. -/
def dst (event : TapEvent) : peer :=
  { address := event.destination
    labels := getLabels event.destinationMeta
    direction := "dst" }

/-- `(*peer).tlsStatus` from `tap.go`. -/
def tlsStatus (p : peer) : String :=
  mapGet p.labels "tls"

/-- Modelled from the spec: `addr.PublicAddressToString` (package
`pkg/addr`, outside the source fragment) — the textual peer address, the
Address Codec output joined with the decimal port by a colon, as in the
rendering examples of the spec (`10.0.0.1:80`). -/
def PublicAddressToString (a : Option TcpAddress) : String :=
  getIPAddress (getIp a) ++ ":" ++ toString (getPort a)

/-- `(*peer).formatAddr` from `tap.go`. -/
def formatAddr (p : peer) : String :=
  p.direction ++ "=" ++ PublicAddressToString p.address

/-- Modelled from the spec: the `k8s.Pod` canonical resource-kind
constant (package `pkg/k8s`, outside the source fragment). -/
def k8sPod : String := "pod"

/-- Modelled from the spec: the `k8s.Namespace` canonical resource-kind
constant (package `pkg/k8s`, outside the source fragment). -/
def k8sNamespace : String := "namespace"

/-- Modelled from the spec: `k8s.ShortNameFromCanonicalResourceName`
(package `pkg/k8s`, outside the source fragment) — the side table of
canonical resource-kind names to abbreviated display forms, e.g.
`deployment` to `deploy`; the empty string means no short form. -/
def ShortNameFromCanonicalResourceName : String → String
  | "authority" => "au"
  | "daemonset" => "ds"
  | "deployment" => "deploy"
  | "namespace" => "ns"
  | "pod" => "po"
  | "replicationcontroller" => "rc"
  | "service" => "svc"
  | "statefulset" => "sts"
  | _ => ""

/-- `(*peer).formatResource` from `tap.go`: the wide-mode resource label
of a peer — `<dir>_res=<kind>/<name>` when the peer has a label keyed by
the resource kind (the kind abbreviated when a short form exists),
falling back to `<dir>_pod=<pod>`, plus `<dir>_ns=<ns>` unless the
resource kind itself is the namespace kind. -/
def formatResource (p : peer) (resourceKind : String) : String :=
  let s :=
    if mapHas p.labels resourceKind then
      let resourceName := mapGet p.labels resourceKind
      let short := ShortNameFromCanonicalResourceName resourceKind
      let kind := if short ≠ "" then short else resourceKind
      " " ++ p.direction ++ "_res=" ++ kind ++ "/" ++ resourceName
    else if mapHas p.labels k8sPod then
      " " ++ p.direction ++ "_pod=" ++ mapGet p.labels k8sPod
    else ""
  if resourceKind ≠ k8sNamespace then
    if mapHas p.labels k8sNamespace then
      s ++ " " ++ p.direction ++ "_ns=" ++ mapGet p.labels k8sNamespace
    else s
  else s

/-- `routeLabels` from `tap.go`: every route-label entry rendered as
` rt_<key>=<value>` (Go map iteration order is modelled by list order). -/
def routeLabels (event : TapEvent) : String :=
  ((getLabels event.routeMeta).getD []).foldl
    (fun out kv => out ++ " rt_" ++ kv.1 ++ "=" ++ kv.2) ""

/-- `google.golang.org/grpc/codes.Code.String`: the canonical gRPC status
code names, `Code(<n>)` for an unknown numeric code. -/
def codeName (c : Nat) : String :=
  match c with
  | 0 => "OK"
  | 1 => "Canceled"
  | 2 => "Unknown"
  | 3 => "InvalidArgument"
  | 4 => "DeadlineExceeded"
  | 5 => "NotFound"
  | 6 => "AlreadyExists"
  | 7 => "PermissionDenied"
  | 8 => "ResourceExhausted"
  | 9 => "FailedPrecondition"
  | 10 => "Aborted"
  | 11 => "OutOfRange"
  | 12 => "Unimplemented"
  | 13 => "Internal"
  | 14 => "Unavailable"
  | 15 => "DataLoss"
  | 16 => "Unauthenticated"
  | n => "Code(" ++ toString n ++ ")"

/-- The `flow` local of `renderTapEvent`: proxy direction indicator
(`in ` padded, `out`, or `???`), the two peer addresses, and the TLS
status read from the source labels when inbound and the destination
labels when outbound. -/
def flowString (event : TapEvent) : String :=
  let dstP := dst event
  let srcP := src event
  let pt : String × String :=
    match event.proxyDirection with
    | .INBOUND => ("in ", tlsStatus srcP)
    | .OUTBOUND => ("out", tlsStatus dstP)
    | .UNKNOWN => ("???", "")
  "proxy=" ++ pt.1 ++ " " ++ formatAddr srcP ++ " " ++ formatAddr dstP ++ " tls=" ++ pt.2

/-- The `resources` local of `renderTapEvent`: empty in compact mode,
otherwise the two peer resource labels followed by the route labels. -/
def resourcesString (event : TapEvent) (resource : String) : String :=
  if resource ≠ "" then
    formatResource (src event) resource ++ formatResource (dst event) resource ++
      routeLabels event
  else ""

/-- `renderTapEvent` from `tap.go`: the compact/wide line renderer. The
`latency` and `duration` microsecond fields divide only the nanoseconds
component of the duration by 1000, exactly as the source does
(`GetNanos()/1000`, Go integer division truncating toward zero). -/
def renderTapEvent (event : TapEvent) (resource : String) : String :=
  let flow := flowString event
  let resources := resourcesString event resource
  match getHttpEvent event with
  | some (.requestInit ri) =>
      "req id=" ++ toString (getBase ri.id) ++ ":" ++ toString (getStream ri.id) ++ " " ++ flow ++
        " :method=" ++ (getRegistered ri.method).toName ++
        " :authority=" ++ ri.authority ++ " :path=" ++ ri.path ++ resources
  | some (.responseInit ri) =>
      "rsp id=" ++ toString (getBase ri.id) ++ ":" ++ toString (getStream ri.id) ++ " " ++ flow ++
        " :status=" ++ toString ri.httpStatus ++
        " latency=" ++ toString (Int.tdiv (getNanos ri.sinceRequestInit) 1000) ++ "µs" ++ resources
  | some (.responseEnd re) =>
      match getEosEnd re.eos with
      | some (.grpcStatusCode c) =>
          "end id=" ++ toString (getBase re.id) ++ ":" ++ toString (getStream re.id) ++ " " ++
            flow ++ " grpc-status=" ++ codeName c ++
            " duration=" ++ toString (Int.tdiv (getNanos re.sinceResponseInit) 1000) ++ "µs" ++
            " response-length=" ++ toString re.responseBytes ++ "B" ++ resources
      | some (.resetErrorCode c) =>
          "end id=" ++ toString (getBase re.id) ++ ":" ++ toString (getStream re.id) ++ " " ++
            flow ++ " reset-error=" ++ toString c ++
            " duration=" ++ toString (Int.tdiv (getNanos re.sinceResponseInit) 1000) ++ "µs" ++
            " response-length=" ++ toString re.responseBytes ++ "B" ++ resources
      | none =>
          "end id=" ++ toString (getBase re.id) ++ ":" ++ toString (getStream re.id) ++ " " ++
            flow ++
            " duration=" ++ toString (Int.tdiv (getNanos re.sinceResponseInit) 1000) ++ "µs" ++
            " response-length=" ++ toString re.responseBytes ++ "B" ++ resources
  | none => "unknown " ++ flow

/-! ## JSON renderer (`renderTapEventJSON`)

`encoding/json.MarshalIndent(m, "", "  ")` on the display `tapEvent` is
embedded through a small JSON document type: struct fields appear in
declaration order, a field tagged `omitempty` is dropped at its zero
value (nil pointer, zero integer, empty string), nil pointers and nil
maps marshal as `null`, map keys are sorted, and strings are escaped with
the default HTML-safe escaping. -/

/-- A JSON document. -/
inductive JValue
  | null
  | jnum (n : Int)
  | jstr (s : String)
  | jarr (xs : List JValue)
  | jobj (fields : List (String × JValue))

/-- The escape sequence `encoding/json` emits for one character. -/
def escChar (c : Char) : List Char :=
  if c = '"' then ['\\', '"']
  else if c = '\\' then ['\\', '\\']
  else if c = '\n' then ['\\', 'n']
  else if c = '\r' then ['\\', 'r']
  else if c = '\t' then ['\\', 't']
  else if c = '<' ∨ c = '>' ∨ c = '&' ∨ c.toNat < 32 then
    ['\\', 'u', '0', '0', Nat.digitChar (c.toNat / 16), Nat.digitChar (c.toNat % 16)]
  else [c]

/-- `encoding/json` string escaping. -/
def jsonEscape (s : String) : String :=
  String.mk (s.data.map escChar).flatten

mutual

/-- Indented JSON rendering as `json.MarshalIndent` with a two-space
indent produces; `ind` is the indentation of the line the value starts
on. -/
def renderJValue (ind : String) : JValue → String
  | .null => "null"
  | .jnum n => toString n
  | .jstr s => "\"" ++ jsonEscape s ++ "\""
  | .jarr [] => "[]"
  | .jarr (x :: xs) =>
      "[\n" ++ renderItems (ind ++ "  ") (x :: xs) ++ "\n" ++ ind ++ "]"
  | .jobj [] => "\x7b\x7d"
  | .jobj (f :: fs) =>
      "\x7b\n" ++ renderFields (ind ++ "  ") (f :: fs) ++ "\n" ++ ind ++ "\x7d"

/-- The comma-separated array items, one per line. -/
def renderItems (ind : String) : List JValue → String
  | [] => ""
  | [x] => ind ++ renderJValue ind x
  | x :: y :: rest =>
      ind ++ renderJValue ind x ++ ",\n" ++ renderItems ind (y :: rest)

/-- The comma-separated object fields, one per line. -/
def renderFields (ind : String) : List (String × JValue) → String
  | [] => ""
  | [(k, v)] => ind ++ "\"" ++ jsonEscape k ++ "\": " ++ renderJValue ind v
  | (k, v) :: g :: rest =>
      ind ++ "\"" ++ jsonEscape k ++ "\": " ++ renderJValue ind v ++ ",\n" ++
        renderFields ind (g :: rest)

end

/-- Insertion into a key-sorted association list (Go marshals map keys in
sorted order). -/
def insertSortedKV (kv : String × JValue) : List (String × JValue) → List (String × JValue)
  | [] => [kv]
  | h :: t => if kv.1 ≤ h.1 then kv :: h :: t else h :: insertSortedKV kv t

/-- A Go `map[string]string` as a JSON value: `null` when the map is nil,
otherwise an object with the entries in sorted key order. -/
def mapToJValue : Option (List (String × String)) → JValue
  | none => .null
  | some ls => .jobj (ls.foldr (fun kv acc => insertSortedKV (kv.1, .jstr kv.2) acc) [])

/-- The numeric value of a registered method (proto enum numbering). -/
def HttpMethod_Registered.toValue : HttpMethod_Registered → Nat
  | .GET => 0
  | .POST => 1
  | .PUT => 2
  | .DELETE => 3
  | .PATCH => 4
  | .OPTIONS => 5
  | .CONNECT => 6
  | .HEAD => 7
  | .TRACE => 8

/-- `*pb.HttpMethod` under `encoding/json`: the generated struct holds the
`oneof` interface in field `Type`, whose wrapper struct has a lowercase
`omitempty` field for its variant. -/
def methodToJValue : Option HttpMethod → JValue
  | none => .null
  | some ⟨none⟩ => .jobj [("Type", .null)]
  | some ⟨some (.registered r)⟩ =>
      .jobj [("Type", .jobj (if r = .GET then [] else [("registered", .jnum r.toValue)]))]
  | some ⟨some (.unregistered s)⟩ =>
      .jobj [("Type", .jobj (if s = "" then [] else [("unregistered", .jstr s)]))]

/-- `*pb.Scheme` under `encoding/json`, like `methodToJValue`. -/
def schemeToJValue : Option Scheme → JValue
  | none => .null
  | some ⟨none⟩ => .jobj [("Type", .null)]
  | some ⟨some (.registered r)⟩ =>
      .jobj [("Type", .jobj (if r = .HTTP then [] else [("registered", .jnum 1)]))]
  | some ⟨some (.unregistered s)⟩ =>
      .jobj [("Type", .jobj (if s = "" then [] else [("unregistered", .jstr s)]))]

/-- `*duration.Duration` under `encoding/json`: generated fields
`seconds,omitempty` and `nanos,omitempty`. -/
def durationToJValue : Option Duration → JValue
  | none => .null
  | some d =>
      .jobj ((if d.seconds ≠ 0 then [("seconds", JValue.jnum d.seconds)] else []) ++
        (if d.nanos ≠ 0 then [("nanos", JValue.jnum d.nanos)] else []))

/-- The display `*streamID` as JSON (`json:"base"`, `json:"stream"`). -/
def streamIDToJValue : Option streamID → JValue
  | none => .null
  | some s => .jobj [("base", .jnum s.Base), ("stream", .jnum s.Stream)]

/-- The display `*endpoint` as JSON (`json:"ip"`, `json:"port"`,
`json:"metadata"`). -/
def endpointToJValue : Option endpoint → JValue
  | none => .null
  | some e => .jobj [("ip", .jstr e.IP), ("port", .jnum e.Port), ("metadata", mapToJValue e.Metadata)]

/-- The display `requestInitEvent` as JSON. -/
def requestInitEventToJValue (r : requestInitEvent) : JValue :=
  .jobj
    [("id", streamIDToJValue r.ID), ("method", methodToJValue r.Method),
     ("scheme", schemeToJValue r.Scheme), ("authority", .jstr r.Authority),
     ("path", .jstr r.Path)]

/-- The display `responseInitEvent` as JSON. -/
def responseInitEventToJValue (r : responseInitEvent) : JValue :=
  .jobj
    [("id", streamIDToJValue r.ID), ("sinceRequestInit", durationToJValue r.SinceRequestInit),
     ("httpStatus", .jnum r.HTTPStatus)]

/-- The display `responseEndEvent` as JSON: `grpcStatusCode` and
`resetErrorCode` are tagged `omitempty`, so a zero code is omitted. -/
def responseEndEventToJValue (r : responseEndEvent) : JValue :=
  .jobj
    ([("id", streamIDToJValue r.ID), ("sinceRequestInit", durationToJValue r.SinceRequestInit),
      ("sinceResponseInit", durationToJValue r.SinceResponseInit),
      ("responseBytes", JValue.jnum r.ResponseBytes)] ++
      (if r.GrpcStatusCode ≠ 0 then [("grpcStatusCode", JValue.jnum r.GrpcStatusCode)] else []) ++
      (if r.ResetErrorCode ≠ 0 then [("resetErrorCode", JValue.jnum r.ResetErrorCode)] else []))

/-- The top-level JSON fields of a display `tapEvent`: the always-present
fields in struct order, then each of the three `omitempty` lifecycle
sub-records exactly when present. -/
def tapEventJSONFields (m : tapEvent) : List (String × JValue) :=
  [("source", endpointToJValue m.Source),
   ("destination", endpointToJValue m.Destination),
   ("routeMeta", mapToJValue m.RouteMeta),
   ("proxyDirection", JValue.jstr m.ProxyDirection)] ++
    (match m.RequestInitEvent with
     | some r => [("requestInitEvent", requestInitEventToJValue r)]
     | none => []) ++
    (match m.ResponseInitEvent with
     | some r => [("responseInitEvent", responseInitEventToJValue r)]
     | none => []) ++
    (match m.ResponseEndEvent with
     | some r => [("responseEndEvent", responseEndEventToJValue r)]
     | none => [])

/-- `renderTapEventJSON` from `tap.go`: classify the event and marshal the
display record with two-space indentation (marshalling a `tapEvent` cannot
fail, so the error branch of the source is unreachable). -/
def renderTapEventJSON (event : TapEvent) (_resource : String) : String :=
  renderJValue "" (.jobj (tapEventJSONFields (mapPublicToDisplayTapEvent event)))

/-! ## Stream consumer loop (`renderTapEvents`, `writeTapEventsToBuffer`)

The external decoded-message source
(`protohttp.FromByteStreamToProtocolBuffers`) yields a sequence of events
and then one terminal signal: end-of-input (`io.EOF`) or a decode
failure. The tabwriter output sink is a buffer of emitted lines moved to
the flushed output by `Flush`; writes to it do not fail in this model, so
the `Fprintln` error return of the source loop is never taken. -/

/-- The terminal signal of the external event source. -/
inductive StreamEnding
  | eofSignal
  | failure (msg : String)
deriving DecidableEq, Repr

/-- The external decoded event stream: the events it yields, then how it
ends. -/
structure ByteStream where
  events : List TapEvent
  ending : StreamEnding

/-- The `tabwriter.Writer` sink: lines written but not yet flushed, and
lines made visible by `Flush`. -/
structure Writer where
  buffered : List String
  flushed : List String
deriving DecidableEq, Repr

/-- `fmt.Fprintln(w, line)`. -/
def wFprintln (w : Writer) (line : String) : Writer :=
  { w with buffered := w.buffered ++ [line] }

/-- `(*tabwriter.Writer).Flush`. -/
def wFlush (w : Writer) : Writer :=
  { buffered := [], flushed := w.flushed ++ w.buffered }

/-- `renderTapEvents` from `tap.go`: pull events until the stream ends;
`io.EOF` breaks the loop silently, any other decode failure is printed to
stderr and breaks the loop; each event is rendered and written to `w`.
Returns the writer, the stderr lines, and the loop's returned error. -/
def renderTapEventsLoop (render : TapEvent → String → String) (resource : String) (ending : StreamEnding) :
    List TapEvent → Writer → List String → Writer × List String × Option String
  | e :: rest, w, stderr =>
      renderTapEventsLoop render resource ending rest (wFprintln w (render e resource)) stderr
  | [], w, stderr =>
      match ending with
      | .eofSignal => (w, stderr, none)
      | .failure msg => (w, stderr ++ [msg], none)

/-- `renderTapEvents` over a whole stream, starting from writer `w` and an
empty stderr. -/
def renderTapEvents (s : ByteStream) (w : Writer) (render : TapEvent → String → String)
    (resource : String) : Writer × List String × Option String :=
  renderTapEventsLoop render resource s.ending s.events w []

/-- Modelled from the spec: the `wideOutput` output-mode constant
(defined outside the source fragment), named `wide` in the spec. -/
def wideOutput : String := "wide"

/-- Modelled from the spec: the `jsonOutput` output-mode constant
(defined outside the source fragment), named `json` in the spec. -/
def jsonOutput : String := "json"

/-- `writeTapEventsToBuffer` from `tap.go`: choose the renderer from the
output option (wide mode passes the requested target resource type), run
the consumer loop, and flush the writer when the loop reports no error. -/
def writeTapEventsToBuffer (s : ByteStream) (output : String) (targetResourceType : String) :
    Writer × List String × Option String :=
  let w0 : Writer := ⟨[], []⟩
  let r :=
    if output = "" then renderTapEvents s w0 renderTapEvent ""
    else if output = wideOutput then renderTapEvents s w0 renderTapEvent targetResourceType
    else if output = jsonOutput then renderTapEvents s w0 renderTapEventJSON ""
    else (w0, [], none)
  match r with
  | (w, errs, some err) => (w, errs, some err)
  | (w, errs, none) => (wFlush w, errs, none)

/-! ## Standard IP-address text parsing

The round-trip claims of the spec are stated against standard parsing of
the produced address text. The parser below follows `net.ParseIP`: a text
is dispatched on the first `.` or `:` character; dotted-decimal IPv4
(each byte 1-3 decimal digits, no leading zero, value below 256) yields
the 16-byte IPv4-mapped form; IPv6 text is hex groups of 1-4 digits
joined by `:` with at most one `::` standing for one or more zero
groups. -/

/-- Splits a character list at every occurrence of the separator; the
inverse of `intercalateChar` for separator-free chunks. -/
def splitChar (sep : Char) : List Char → List (List Char)
  | [] => [[]]
  | c :: cs =>
    if c = sep then [] :: splitChar sep cs
    else
      match splitChar sep cs with
      | t :: ts => (c :: t) :: ts
      | [] => [[c]]

/-- The numeric value of a hexadecimal digit character, either case. -/
def charHexVal (c : Char) : Option Nat :=
  if '0' ≤ c ∧ c ≤ '9' then some (c.toNat - '0'.toNat)
  else if 'a' ≤ c ∧ c ≤ 'f' then some (c.toNat - 'a'.toNat + 10)
  else if 'A' ≤ c ∧ c ≤ 'F' then some (c.toNat - 'A'.toNat + 10)
  else none

/-- The value of one digit character in the given base. -/
def digitVal? (base : Nat) (c : Char) : Option Nat :=
  match charHexVal c with
  | some d => if d < base then some d else none
  | none => none

/-- Parses a nonempty run of digit characters in the given base, most
significant first. -/
def parseNatBase (base : Nat) (cs : List Char) : Option Nat :=
  if cs.isEmpty then none
  else cs.foldlM (fun acc c => (digitVal? base c).map fun v => acc * base + v) 0

/-- Standard parse of one dotted-decimal byte: 1-3 decimal digits, no
leading zero on a multi-digit number, value below 256. -/
def parseDecByte (cs : List Char) : Option Nat :=
  if cs.length = 0 ∨ 3 < cs.length then none
  else if 1 < cs.length ∧ cs.head? = some '0' then none
  else (parseNatBase 10 cs).bind fun n => if n < 256 then some n else none

/-- Standard dotted-decimal IPv4 parse: exactly four byte fields. -/
def parseIPv4 (cs : List Char) : Option (List Nat) :=
  ((splitChar '.' cs).mapM parseDecByte).bind fun bs => if bs.length = 4 then some bs else none

/-- Standard parse of one IPv6 group: 1-4 hex digits. -/
def parseHexGroup (cs : List Char) : Option Nat :=
  if cs.length = 0 ∨ 4 < cs.length then none
  else parseNatBase 16 cs

/-- The two big-endian bytes of a 16-bit group. -/
def groupBytes (g : Nat) : List Nat :=
  [g / 256, g % 256]

/-- Fills the gap a `::` stands for with zero groups, to eight groups. -/
def expandGroups (ls rs : List Nat) : List Nat :=
  ls ++ List.replicate (8 - ls.length - rs.length) 0 ++ rs

/-- Splits a token list at its first empty token; the tokens before it
are all nonempty. -/
def splitAtEmptyTok : List (List Char) → Option (List (List Char) × List (List Char))
  | [] => none
  | t :: ts =>
    if t.isEmpty then some ([], ts)
    else
      match splitAtEmptyTok ts with
      | some (l, r) => some (t :: l, r)
      | none => none

/-- Interprets the `:`-separated tokens of an IPv6 text: eight groups, or
a `::` (a leading empty pair, a trailing empty pair, or one interior
empty token) standing for one to eight zero groups. -/
def parseV6Toks (toks : List (List Char)) : Option (List Nat) :=
  if toks.all (fun t => ¬t.isEmpty) then
    (toks.mapM parseHexGroup).bind fun gs => if gs.length = 8 then some gs else none
  else if toks.head? = some [] then
    if toks.tail.head? = some [] then
      if toks.tail.tail = [[]] then some (List.replicate 8 0)
      else
        (toks.tail.tail.mapM parseHexGroup).bind fun rs =>
          if 1 ≤ rs.length ∧ rs.length ≤ 7 then some (expandGroups [] rs) else none
    else none
  else
    (splitAtEmptyTok toks).bind fun lr =>
      (lr.1.mapM parseHexGroup).bind fun ls =>
        if lr.2 = [[]] then
          if 1 ≤ ls.length ∧ ls.length ≤ 7 then some (expandGroups ls []) else none
        else
          (lr.2.mapM parseHexGroup).bind fun rs =>
            if 1 ≤ ls.length ∧ 1 ≤ rs.length ∧ ls.length + rs.length ≤ 7 then
              some (expandGroups ls rs)
            else none

/-- Standard IPv6 parse: group tokens interpreted, then laid out as the
16-byte big-endian sequence. -/
def parseIPv6 (cs : List Char) : Option (List Nat) :=
  (parseV6Toks (splitChar ':' cs)).map fun gs => (gs.map groupBytes).flatten

/-- The 16-byte IPv4-mapped form of four IPv4 bytes, as `net.ParseIP`
represents a dotted-decimal address. -/
def v4mapped (bs : List Nat) : List Nat :=
  [0, 0, 0, 0, 0, 0, 0, 0, 0, 0, 255, 255] ++ bs

/-- Standard IP parse (`net.ParseIP`): dispatch on the first `.` or `:`
character; either way the result is a 16-byte sequence. -/
def parseIP (s : String) : Option (List Nat) :=
  match s.data.find? (fun c => c == '.' || c == ':') with
  | some c =>
      if c = '.' then (parseIPv4 s.data).map v4mapped
      else if c = ':' then parseIPv6 s.data
      else none
  | none => none

example : parseIP "10.0.0.1" = some (v4mapped [10, 0, 0, 1]) := by decide
example : parseIP "::1" =
    some [0, 0, 0, 0, 0, 0, 0, 0, 0, 0, 0, 0, 0, 0, 0, 1] := by decide
example : parseIP "::" = some (List.replicate 16 0) := by decide
example : parseIP "4000::1" =
    some [64, 0, 0, 0, 0, 0, 0, 0, 0, 0, 0, 0, 0, 0, 0, 1] := by decide
example : parseIP "0:0:1:0:8000::" =
    some [0, 0, 0, 0, 0, 1, 0, 0, 128, 0, 0, 0, 0, 0, 0, 0] := by decide
example : parseIP (getIPAddress (some ⟨some (.ipv6 1 (2 ^ 63))⟩)) =
    some (bytesBE8 1 ++ bytesBE8 (2 ^ 63)) := by decide
example : parseIP "1:2:3:4:5:6:7:8" =
    some [0, 1, 0, 2, 0, 3, 0, 4, 0, 5, 0, 6, 0, 7, 0, 8] := by decide
example : parseIP ":::" = none := by decide
example : parseIP "1::2::3" = none := by decide
example : parseIP "01.2.3.4" = none := by decide
example : parseIP "" = none := by decide

/-! ## Round-trip lemmas: digit printing against digit parsing -/

theorem natToCharsAux_eq {b : Nat} (hb : 1 < b) :
    ∀ fuel n acc, n ≤ fuel →
      natToCharsAux b fuel n acc = ((Nat.digits b n).reverse.map Nat.digitChar) ++ acc := by
  intro fuel
  induction fuel with
  | zero =>
      intro n acc hn
      interval_cases n
      simp [natToCharsAux]
  | succ fuel ih =>
      intro n acc hn
      by_cases h0 : n = 0
      · simp [natToCharsAux, h0]
      · have hdig : Nat.digits b n = n % b :: Nat.digits b (n / b) :=
          Nat.digits_def' hb (Nat.pos_of_ne_zero h0)
        have hdiv : n / b ≤ fuel := by
          have : n / b < n := Nat.div_lt_self (Nat.pos_of_ne_zero h0) hb
          omega
        simp only [natToCharsAux, h0, if_false]
        rw [ih (n / b) (Nat.digitChar (n % b) :: acc) hdiv, hdig]
        simp

theorem natToChars_eq {b n : Nat} (hb : 1 < b) (h0 : n ≠ 0) :
    natToChars b n = (Nat.digits b n).reverse.map Nat.digitChar := by
  simp [natToChars, h0, natToCharsAux_eq hb n n [] (le_refl n)]

theorem natToChars_ne_nil {b n : Nat} (hb : 1 < b) : natToChars b n ≠ [] := by
  by_cases h0 : n = 0
  · simp [natToChars, h0]
  · rw [natToChars_eq hb h0]
    simp [Nat.digits_ne_nil_iff_ne_zero.mpr h0]

theorem mem_natToChars {b n : Nat} {c : Char} (hb : 1 < b) (hb16 : b ≤ 16)
    (hc : c ∈ natToChars b n) : ∃ d, d < 16 ∧ c = Nat.digitChar d := by
  by_cases h0 : n = 0
  · rw [natToChars, if_pos h0] at hc
    simp only [List.mem_singleton] at hc
    exact ⟨0, by omega, by simpa using hc⟩
  · rw [natToChars_eq hb h0] at hc
    simp only [List.mem_map, List.mem_reverse] at hc
    obtain ⟨d, hd, rfl⟩ := hc
    exact ⟨d, by have := Nat.digits_lt_base hb hd; omega, rfl⟩

theorem digitChar_ne_dot {d : Nat} (hd : d < 16) : Nat.digitChar d ≠ '.' := by
  interval_cases d <;> decide

theorem digitChar_ne_colon {d : Nat} (hd : d < 16) : Nat.digitChar d ≠ ':' := by
  interval_cases d <;> decide

theorem charHexVal_digitChar {d : Nat} (hd : d < 16) : charHexVal (Nat.digitChar d) = some d := by
  interval_cases d <;> decide

theorem digitVal?_digitChar {b d : Nat} (hd : d < b) (hb16 : b ≤ 16) :
    digitVal? b (Nat.digitChar d) = some d := by
  rw [digitVal?, charHexVal_digitChar (by omega)]
  simp [hd]

theorem foldlM_option_append {α β : Type} (f : β → α → Option β) (l1 l2 : List α) (b : β) :
    (l1 ++ l2).foldlM f b = (l1.foldlM f b).bind fun b2 => l2.foldlM f b2 := by
  induction l1 generalizing b with
  | nil => simp
  | cons a t ih =>
      simp only [List.cons_append, List.foldlM_cons]
      cases f b a with
      | none => simp
      | some b2 => simp [ih]

theorem parse_foldlM {b : Nat} (hb16 : b ≤ 16) :
    ∀ (ds : List Nat) (a : Nat), (∀ d ∈ ds, d < b) →
      List.foldlM (fun acc c => (digitVal? b c).map fun v => acc * b + v) a
        (ds.reverse.map Nat.digitChar) = some (a * b ^ ds.length + Nat.ofDigits b ds) := by
  intro ds
  induction ds with
  | nil => simp [Nat.ofDigits]
  | cons d t ih =>
      intro a hlt
      have hd : d < b := hlt d (by simp)
      have ht : ∀ x ∈ t, x < b := fun x hx => hlt x (by simp [hx])
      simp only [List.reverse_cons, List.map_append, List.map_cons, List.map_nil]
      rw [foldlM_option_append, ih a ht, Option.some_bind]
      simp only [List.foldlM_cons, digitVal?_digitChar hd hb16, Option.map_some,
        List.foldlM_nil, Nat.ofDigits_cons, List.length_cons]
      simp only [Option.map_some', Option.bind_eq_bind, Option.some_bind, Option.pure_def,
        Option.some_inj]
      ring

theorem parseNatBase_natToChars {b n : Nat} (hb : 1 < b) (hb16 : b ≤ 16) :
    parseNatBase b (natToChars b n) = some n := by
  by_cases h0 : n = 0
  · subst h0
    rw [natToChars, if_pos rfl, parseNatBase]
    have h00 : digitVal? b '0' = some 0 := by
      have : Nat.digitChar 0 = '0' := rfl
      rw [← this, digitVal?_digitChar (by omega) hb16]
    simp [h00]
  · rw [natToChars_eq hb h0, parseNatBase]
    have hne : (Nat.digits b n).reverse.map Nat.digitChar ≠ [] := by
      simp [Nat.digits_ne_nil_iff_ne_zero.mpr h0]
    rw [if_neg (by simpa [List.isEmpty_iff] using hne)]
    rw [parse_foldlM hb16 (Nat.digits b n) 0 (fun d hd => Nat.digits_lt_base hb hd)]
    simp [Nat.ofDigits_digits]

theorem natToChars_length_le {b n k : Nat} (hb : 1 < b) (hk : 1 ≤ k) (hn : n < b ^ k) :
    (natToChars b n).length ≤ k := by
  by_cases h0 : n = 0
  · simp [natToChars, h0]
    omega
  · rw [natToChars_eq hb h0]
    simp only [List.length_map, List.length_reverse]
    by_contra hlen
    push_neg at hlen
    have h1 : b ^ (Nat.digits b n).length ≤ b * n := Nat.base_pow_length_digits_le b n hb h0
    have h2 : b ^ (k + 1) ≤ b ^ (Nat.digits b n).length := Nat.pow_le_pow_right (by omega) hlen
    have h3 : b * n < b * b ^ k := by
      exact (mul_lt_mul_left (by omega : 0 < b)).mpr hn
    rw [← pow_succ'] at h3
    omega

theorem parseHexGroup_natToChars {g : Nat} (hg : g < 65536) :
    parseHexGroup (natToChars 16 g) = some g := by
  have hlen : (natToChars 16 g).length ≤ 4 :=
    natToChars_length_le (by omega) (by omega) (by norm_num; omega)
  have hne : natToChars 16 g ≠ [] := natToChars_ne_nil (by omega)
  rw [parseHexGroup, if_neg (by
    intro h
    rcases h with h | h
    · exact hne (List.length_eq_zero.mp h)
    · omega)]
  exact parseNatBase_natToChars (by omega) (by omega)

theorem digitChar_ne_zeroChar {d : Nat} (hd : d < 16) (h0 : d ≠ 0) : Nat.digitChar d ≠ '0' := by
  interval_cases d <;> simp_all <;> decide

theorem parseDecByte_natToChars {n : Nat} (hn : n < 256) :
    parseDecByte (natToChars 10 n) = some n := by
  have hlen : (natToChars 10 n).length ≤ 3 :=
    natToChars_length_le (by omega) (by omega) (by norm_num; omega)
  have hne : natToChars 10 n ≠ [] := natToChars_ne_nil (by omega)
  have hlen1 : 1 ≤ (natToChars 10 n).length := by
    cases h : natToChars 10 n with
    | nil => exact absurd h hne
    | cons a t => simp
  rw [parseDecByte, if_neg (by omega)]
  rw [if_neg]
  · rw [parseNatBase_natToChars (by omega) (by omega), Option.some_bind, if_pos hn]
  · rintro ⟨hgt, hhead⟩
    by_cases h0 : n = 0
    · rw [natToChars, if_pos h0] at hgt
      simp at hgt
    · rw [natToChars_eq (by omega) h0] at hhead
      rw [List.head?_map, List.head?_reverse] at hhead
      have hnil : Nat.digits 10 n ≠ [] := Nat.digits_ne_nil_iff_ne_zero.mpr h0
      rw [List.getLast?_eq_getLast _ hnil] at hhead
      simp only [Option.map_some', Option.some_inj] at hhead
      have hlast : (Nat.digits 10 n).getLast hnil ≠ 0 := Nat.getLast_digit_ne_zero 10 h0
      have hlast16 : (Nat.digits 10 n).getLast hnil < 16 := by
        have := Nat.digits_lt_base (by omega) (List.getLast_mem hnil)
        omega
      exact digitChar_ne_zeroChar hlast16 hlast hhead

/-! ## Splitting against intercalation -/

theorem splitChar_ne_nil (sep : Char) (l : List Char) : splitChar sep l ≠ [] := by
  induction l with
  | nil => simp [splitChar]
  | cons c cs ih =>
      rw [splitChar]
      by_cases h : c = sep
      · simp [h]
      · rw [if_neg h]
        cases hs : splitChar sep cs with
        | nil => exact absurd hs ih
        | cons t ts => simp

theorem splitChar_append (sep : Char) (x y : List Char) :
    splitChar sep (x ++ sep :: y) = splitChar sep x ++ splitChar sep y := by
  induction x with
  | nil => simp [splitChar]
  | cons c cs ih =>
      have hcons : ∀ z : List Char, splitChar sep (c :: z) =
          if c = sep then [] :: splitChar sep z
          else
            match splitChar sep z with
            | t :: ts => (c :: t) :: ts
            | [] => [[c]] := fun z => rfl
      by_cases h : c = sep
      · rw [List.cons_append, hcons, if_pos h, ih, hcons, if_pos h]
        rfl
      · cases hs : splitChar sep cs with
        | nil => exact absurd hs (splitChar_ne_nil sep cs)
        | cons t ts =>
            rw [List.cons_append, hcons, if_neg h, ih, hs, hcons, if_neg h, hs]
            rfl

theorem splitChar_sepFree (sep : Char) (l : List Char) (h : ∀ c ∈ l, c ≠ sep) :
    splitChar sep l = [l] := by
  induction l with
  | nil => rfl
  | cons c cs ih =>
      rw [splitChar, if_neg (h c (by simp)), ih (fun d hd => h d (by simp [hd]))]

theorem splitChar_intercalate (sep : Char) (parts : List (List Char)) (hne : parts ≠ [])
    (h : ∀ p ∈ parts, ∀ c ∈ p, c ≠ sep) :
    splitChar sep (intercalateChar sep parts) = parts := by
  induction parts with
  | nil => exact absurd rfl hne
  | cons x rest ih =>
      cases rest with
      | nil => exact splitChar_sepFree sep x (h x (by simp))
      | cons y rest2 =>
          rw [intercalateChar, splitChar_append,
            ih (by simp) (fun p hp c hc => h p (by simp [hp]) c hc),
            splitChar_sepFree sep x (h x (by simp))]
          rfl

theorem mem_intercalateChar {sep c : Char} {parts : List (List Char)}
    (hc : c ∈ intercalateChar sep parts) : c = sep ∨ ∃ p ∈ parts, c ∈ p := by
  induction parts with
  | nil => simp [intercalateChar] at hc
  | cons x rest ih =>
      cases rest with
      | nil =>
          right
          exact ⟨x, by simp, hc⟩
      | cons y rest2 =>
          rw [intercalateChar] at hc
          rcases List.mem_append.mp hc with h | h
          · right
            exact ⟨x, by simp, h⟩
          · rcases List.mem_cons.mp h with h2 | h2
            · left
              exact h2
            · rcases ih h2 with h3 | ⟨p, hp, hcp⟩
              · left
                exact h3
              · right
                exact ⟨p, by simp [List.mem_cons.mp hp], hcp⟩

theorem sep_mem_intercalateChar {sep : Char} {parts : List (List Char)}
    (h : 2 ≤ parts.length) : sep ∈ intercalateChar sep parts := by
  match parts with
  | x :: y :: rest =>
      rw [intercalateChar]
      simp

theorem find?_eq_dot {l : List Char} (h1 : '.' ∈ l) (h2 : ':' ∉ l) :
    l.find? (fun c => c == '.' || c == ':') = some '.' := by
  cases hf : l.find? (fun c => c == '.' || c == ':') with
  | none =>
      have := List.find?_eq_none.mp hf '.' h1
      simp at this
  | some c =>
      have hp := List.find?_some hf
      have hm := List.mem_of_find?_eq_some hf
      simp only [Bool.or_eq_true, beq_iff_eq] at hp
      rcases hp with rfl | rfl
      · rfl
      · exact absurd hm h2

theorem find?_eq_colon {l : List Char} (h1 : ':' ∈ l) (h2 : '.' ∉ l) :
    l.find? (fun c => c == '.' || c == ':') = some ':' := by
  cases hf : l.find? (fun c => c == '.' || c == ':') with
  | none =>
      have := List.find?_eq_none.mp hf ':' h1
      simp at this
  | some c =>
      have hp := List.find?_some hf
      have hm := List.mem_of_find?_eq_some hf
      simp only [Bool.or_eq_true, beq_iff_eq] at hp
      rcases hp with rfl | rfl
      · exact absurd hm h2
      · rfl

theorem mapM_parseHexGroup {gs : List Nat} (h : ∀ g ∈ gs, g < 65536) :
    (gs.map (natToChars 16)).mapM parseHexGroup = some gs := by
  induction gs with
  | nil => rfl
  | cons g t ih =>
      rw [List.map_cons, List.mapM_cons, parseHexGroup_natToChars (h g (by simp)),
        ih (fun x hx => h x (by simp [hx]))]
      rfl

theorem mapM_parseDecByte {bs : List Nat} (h : ∀ x ∈ bs, x < 256) :
    (bs.map (natToChars 10)).mapM parseDecByte = some bs := by
  induction bs with
  | nil => rfl
  | cons x t ih =>
      rw [List.map_cons, List.mapM_cons, parseDecByte_natToChars (h x (by simp)),
        ih (fun y hy => h y (by simp [hy]))]
      rfl

theorem splitAtEmptyTok_append {l r : List (List Char)} (h : ∀ t ∈ l, t ≠ []) :
    splitAtEmptyTok (l ++ [] :: r) = some (l, r) := by
  induction l with
  | nil => rfl
  | cons t ts ih =>
      rw [List.cons_append, splitAtEmptyTok,
        if_neg (by simpa [List.isEmpty_iff] using h t (by simp)),
        ih (fun u hu => h u (by simp [hu]))]

/-! ## Soundness of the zero-run selection -/

theorem zeroRunsAux_sound (gs : List Nat) :
    ∀ (t : List Nat) (i : Nat) (cur : Option (Nat × Nat)),
      t = gs.drop i →
      (∀ s l, cur = some (s, l) → s + l = i ∧ s + l ≤ gs.length ∧
        ∀ k, k < l → gs.getD (s + k) 1 = 0) →
      ∀ r ∈ zeroRunsAux t i cur,
        r.1 + r.2 ≤ gs.length ∧ ∀ k, k < r.2 → gs.getD (r.1 + k) 1 = 0 := by
  intro t
  induction t with
  | nil =>
      intro i cur ht hcur r hr
      cases cur with
      | none => simp [zeroRunsAux] at hr
      | some p =>
          rw [zeroRunsAux] at hr
          simp only [List.mem_singleton] at hr
          subst hr
          obtain ⟨h1, h2, h3⟩ := hcur r.1 r.2 rfl
          exact ⟨h2, h3⟩
  | cons g t2 ih =>
      intro i cur ht hcur r hr
      have hi : i < gs.length := by
        by_contra hle
        rw [List.drop_eq_nil_of_le (by omega)] at ht
        exact List.cons_ne_nil g t2 ht
      have hg : gs.getD i 1 = g := by
        have h0 : (gs.drop i)[0]? = some g := by
          rw [← ht]
          simp
        rw [List.getElem?_drop, Nat.add_zero] at h0
        rw [List.getD_eq_getElem?_getD, h0]
        rfl
      have ht2 : t2 = gs.drop (i + 1) := by
        rw [← List.tail_drop, ← ht]
        rfl
      cases cur with
      | some p =>
          obtain ⟨s0, l0⟩ := p
          have hunf : zeroRunsAux (g :: t2) i (some (s0, l0)) =
              if g = 0 then zeroRunsAux t2 (i + 1) (some (s0, l0 + 1))
              else (s0, l0) :: zeroRunsAux t2 (i + 1) none := rfl
          rw [hunf] at hr
          obtain ⟨hp1, hp2, hp3⟩ := hcur s0 l0 rfl
          by_cases hg0 : g = 0
          · rw [if_pos hg0] at hr
            refine ih (i + 1) (some (s0, l0 + 1)) ht2 ?_ r hr
            intro s l heq
            injection heq with heq
            have hs : s0 = s := congrArg Prod.fst heq
            have hl : l0 + 1 = l := congrArg Prod.snd heq
            refine ⟨by omega, by omega, ?_⟩
            intro k hk
            by_cases hkl : k < l0
            · rw [← hs]
              exact hp3 k hkl
            · have hkeq : k = l0 := by omega
              rw [← hs, hkeq, show s0 + l0 = i from hp1, hg, hg0]
          · rw [if_neg hg0] at hr
            rcases List.mem_cons.mp hr with heq | hmem
            · subst heq
              exact ⟨hp2, hp3⟩
            · exact ih (i + 1) none ht2 (by simp) r hmem
      | none =>
          have hunf : zeroRunsAux (g :: t2) i none =
              if g = 0 then zeroRunsAux t2 (i + 1) (some (i, 1))
              else zeroRunsAux t2 (i + 1) none := rfl
          rw [hunf] at hr
          by_cases hg0 : g = 0
          · rw [if_pos hg0] at hr
            refine ih (i + 1) (some (i, 1)) ht2 ?_ r hr
            intro s l heq
            injection heq with heq
            have hs : i = s := congrArg Prod.fst heq
            have hl : 1 = l := congrArg Prod.snd heq
            refine ⟨by omega, by omega, ?_⟩
            intro k hk
            have hk0 : k = 0 := by omega
            rw [← hs, hk0, Nat.add_zero, hg, hg0]
          · rw [if_neg hg0] at hr
            exact ih (i + 1) none ht2 (by simp) r hr

theorem foldl_pick_mem :
    ∀ (runs : List (Nat × Nat)) (init : Option (Nat × Nat)) (r : Nat × Nat),
      runs.foldl
        (fun best q =>
          match best with
          | none => some q
          | some b => if q.2 > b.2 then some q else best)
        init = some r →
      init = some r ∨ r ∈ runs := by
  intro runs
  induction runs with
  | nil =>
      intro init r h
      exact Or.inl h
  | cons a t ih =>
      intro init r h
      rw [List.foldl_cons] at h
      rcases ih _ r h with hstep | hmem
      · cases init with
        | none =>
            simp only [Option.some_inj] at hstep
            exact Or.inr (by simp [hstep.symm])
        | some b =>
            by_cases hgt : a.2 > b.2
            · simp only [hgt, if_pos] at hstep
              simp only [Option.some_inj] at hstep
              exact Or.inr (by simp [hstep.symm])
            · simp only [if_neg hgt] at hstep
              exact Or.inl hstep
      · exact Or.inr (by simp [hmem])

theorem findCompress_sound {gs : List Nat} {s l : Nat} (h : findCompress gs = some (s, l)) :
    2 ≤ l ∧ s + l ≤ gs.length ∧ ∀ k, k < l → gs.getD (s + k) 1 = 0 := by
  rw [findCompress] at h
  cases hp : pickLongestRun (zeroRuns gs) with
  | none => rw [hp] at h; exact absurd h (by simp)
  | some q =>
      obtain ⟨qs, ql⟩ := q
      rw [hp] at h
      have hred : (match some (qs, ql) with
          | some (s, l) => if 2 ≤ l then some (s, l) else none
          | none => (none : Option (Nat × Nat))) =
          if 2 ≤ ql then some (qs, ql) else none := rfl
      rw [hred] at h
      by_cases h2 : 2 ≤ ql
      · rw [if_pos h2] at h
        have hq : qs = s ∧ ql = l := by
          injection h with h
          exact ⟨congrArg Prod.fst h, congrArg Prod.snd h⟩
        have hmem : (qs, ql) ∈ zeroRuns gs := by
          rcases foldl_pick_mem (zeroRuns gs) none (qs, ql) hp with hinit | hmem
          · exact absurd hinit (by simp)
          · exact hmem
        have hsound := zeroRunsAux_sound gs gs 0 none (by simp) (by simp) (qs, ql) hmem
        obtain ⟨hq1, hq2⟩ := hq
        subst hq1
        subst hq2
        exact ⟨h2, hsound.1, hsound.2⟩
      · rw [if_neg h2] at h
        exact absurd h (by simp)

theorem run_reconstruct {gs : List Nat} {s l : Nat} (hsl : s + l ≤ gs.length)
    (hz : ∀ k, k < l → gs.getD (s + k) 1 = 0) :
    gs = gs.take s ++ (List.replicate l 0 ++ gs.drop (s + l)) := by
  have h4 : (gs.drop s).take l = List.replicate l 0 := by
    apply List.eq_replicate_iff.mpr
    constructor
    · rw [List.length_take, List.length_drop]
      omega
    · intro x hx
      obtain ⟨k, hk, hkx⟩ := List.mem_iff_getElem.mp hx
      rw [List.getElem_take, List.getElem_drop] at hkx
      have hkl : k < l := by
        have := List.length_take_le l (gs.drop s)
        omega
      have := hz k hkl
      rw [List.getD_eq_getElem?_getD, List.getElem?_eq_getElem (by omega)] at this
      simp only [Option.getD_some] at this
      rw [← hkx, this]
  have h3 : (gs.drop s).drop l = gs.drop (s + l) := by
    rw [List.drop_drop]
  rw [← h4, ← h3, List.take_append_drop, List.take_append_drop]

/-! ## Group and byte reassembly -/

theorem groupBytes_pair {a b : Nat} (hb : b < 256) : groupBytes (a * 256 + b) = [a, b] := by
  rw [groupBytes]
  have h1 : (a * 256 + b) / 256 = a := by omega
  have h2 : (a * 256 + b) % 256 = b := by omega
  rw [h1, h2]

theorem ipGroups_flatten : ∀ bs : List Nat, bs.length % 2 = 0 → (∀ x ∈ bs, x < 256) →
    ((ipGroups bs).map groupBytes).flatten = bs
  | [], _, _ => rfl
  | [a], h, _ => by simp at h
  | a :: b :: rest, h, hlt => by
      rw [show ipGroups (a :: b :: rest) = (a * 256 + b) :: ipGroups rest from rfl,
        List.map_cons, List.flatten_cons, groupBytes_pair (hlt b (by simp)),
        ipGroups_flatten rest (by simp only [List.length_cons] at h; omega)
          (fun x hx => hlt x (by simp [hx]))]
      rfl

theorem ipGroups_lt : ∀ bs : List Nat, (∀ x ∈ bs, x < 256) → ∀ g ∈ ipGroups bs, g < 65536
  | [], _, g, hg => by simp [ipGroups] at hg
  | [a], _, g, hg => by simp [ipGroups] at hg
  | a :: b :: rest, hlt, g, hg => by
      rw [show ipGroups (a :: b :: rest) = (a * 256 + b) :: ipGroups rest from rfl] at hg
      rcases List.mem_cons.mp hg with rfl | hmem
      · have ha := hlt a (by simp)
        have hb := hlt b (by simp)
        omega
      · exact ipGroups_lt rest (fun x hx => hlt x (by simp [hx])) g hmem

theorem ipGroups_length : ∀ bs : List Nat, (ipGroups bs).length = bs.length / 2
  | [] => rfl
  | [a] => by
      have h : ipGroups [a] = [] := rfl
      rw [h]
      simp
  | a :: b :: rest => by
      rw [show ipGroups (a :: b :: rest) = (a * 256 + b) :: ipGroups rest from rfl,
        List.length_cons, ipGroups_length rest]
      simp only [List.length_cons]
      omega

/-! ## The rendered IPv6 text parses back to its groups -/

theorem splitChar_cons_self (sep : Char) (z : List Char) :
    splitChar sep (sep :: z) = [] :: splitChar sep z := by
  rw [splitChar, if_pos rfl]

theorem natToChars16_colonFree {gs : List Nat} :
    ∀ p ∈ gs.map (natToChars 16), ∀ c ∈ p, c ≠ ':' := by
  intro p hp c hc
  obtain ⟨g, _, rfl⟩ := List.mem_map.mp hp
  obtain ⟨d, hd, rfl⟩ := mem_natToChars (by omega) (by omega) hc
  exact digitChar_ne_colon hd

theorem map_natToChars_ne_single_nil {l : List Nat} : l.map (natToChars 16) ≠ [[]] := by
  cases l with
  | nil => simp
  | cons x t =>
      rw [List.map_cons]
      intro heq
      injection heq with h1 h2
      exact natToChars_ne_nil (by omega) h1

theorem parseV6Toks_noEllipsis {toks : List (List Char)} (h : ∀ t ∈ toks, t ≠ []) :
    parseV6Toks toks =
      (toks.mapM parseHexGroup).bind fun gs => if gs.length = 8 then some gs else none := by
  rw [parseV6Toks, if_pos (by
    simp only [List.all_eq_true, decide_eq_true_eq, List.isEmpty_iff]
    exact h)]

theorem parseV6Toks_leading (rest : List (List Char)) :
    parseV6Toks ([] :: [] :: rest) =
      if rest = [[]] then some (List.replicate 8 0)
      else
        (rest.mapM parseHexGroup).bind fun rs =>
          if 1 ≤ rs.length ∧ rs.length ≤ 7 then some (expandGroups [] rs) else none := by
  rw [parseV6Toks, if_neg (by simp),
    if_pos (show ([] :: [] :: rest).head? = some [] from rfl),
    if_pos (show ([] :: [] :: rest).tail.head? = some [] from rfl)]
  simp only [List.tail_cons]

theorem parseV6Toks_split {L R : List (List Char)} (hLne : L ≠ []) (hL : ∀ t ∈ L, t ≠ []) :
    parseV6Toks (L ++ [] :: R) =
      (L.mapM parseHexGroup).bind fun ls =>
        if R = [[]] then
          if 1 ≤ ls.length ∧ ls.length ≤ 7 then some (expandGroups ls []) else none
        else
          (R.mapM parseHexGroup).bind fun rs =>
            if 1 ≤ ls.length ∧ 1 ≤ rs.length ∧ ls.length + rs.length ≤ 7 then
              some (expandGroups ls rs)
            else none := by
  obtain ⟨t0, L2, rfl⟩ := List.exists_cons_of_ne_nil hLne
  rw [parseV6Toks, if_neg (by
      simp only [List.all_eq_true, decide_eq_true_eq, List.isEmpty_iff]
      push_neg
      exact ⟨[], by simp, rfl⟩),
    if_neg (by
      rw [List.cons_append]
      simp only [List.head?_cons, Option.some.injEq]
      exact hL t0 (by simp)),
    splitAtEmptyTok_append (fun t ht => hL t ht), Option.some_bind]

theorem parseV6Toks_renderGroups {gs : List Nat} (h8 : gs.length = 8)
    (hlt : ∀ g ∈ gs, g < 65536) :
    parseV6Toks (splitChar ':' (renderGroups gs)) = some gs := by
  cases fc : findCompress gs with
  | none =>
      have hrg : renderGroups gs = intercalateChar ':' (gs.map (natToChars 16)) := by
        rw [renderGroups, fc]
      have hgs : gs ≠ [] := by
        intro h
        rw [h] at h8
        simp at h8
      rw [hrg, splitChar_intercalate ':' _ (by intro h; exact hgs (by simpa using h))
        natToChars16_colonFree,
        parseV6Toks_noEllipsis (by
          intro t ht
          obtain ⟨g, _, rfl⟩ := List.mem_map.mp ht
          exact natToChars_ne_nil (by omega)),
        mapM_parseHexGroup hlt]
      simp [h8]
  | some sl =>
      obtain ⟨s, l⟩ := sl
      obtain ⟨h2l, hsl, hz⟩ := findCompress_sound fc
      rw [h8] at hsl
      have hrecon := run_reconstruct (by omega : s + l ≤ gs.length) hz
      have hLlen : (gs.take s).length = s := by
        rw [List.length_take]
        omega
      have hRlen : (gs.drop (s + l)).length = 8 - (s + l) := by
        rw [List.length_drop, h8]
      have hLmem : ∀ g ∈ gs.take s, g < 65536 := fun g hg => hlt g (List.mem_of_mem_take hg)
      have hRmem : ∀ g ∈ gs.drop (s + l), g < 65536 :=
        fun g hg => hlt g (List.mem_of_mem_drop hg)
      have hrg : renderGroups gs =
          intercalateChar ':' ((gs.take s).map (natToChars 16)) ++
            ':' :: ':' :: intercalateChar ':' ((gs.drop (s + l)).map (natToChars 16)) := by
        rw [renderGroups, fc]
      rw [hrg, splitChar_append, splitChar_cons_self]
      by_cases hs0 : s = 0
      · have hLnil : gs.take s = [] := by
          rw [hs0, List.take_zero]
        rw [hLnil]
        simp only [List.map_nil]
        rw [show intercalateChar ':' ([] : List (List Char)) = [] from rfl,
          show splitChar ':' ([] : List Char) = [[]] from rfl]
        by_cases hR0 : gs.drop (s + l) = []
        · rw [hR0]
          simp only [List.map_nil]
          rw [show intercalateChar ':' ([] : List (List Char)) = [] from rfl,
            show splitChar ':' ([] : List Char) = [[]] from rfl,
            show ([[]] ++ [] :: [[]] : List (List Char)) = [] :: [] :: [[]] from rfl,
            parseV6Toks_leading, if_pos rfl]
          have hl8 : l = 8 := by
            rw [hR0] at hRlen
            simp only [List.length_nil] at hRlen
            omega
          rw [hrecon, hLnil, hR0, hl8]
          rfl
        · have hslt : s + l < 8 := by
            have hR1 : (gs.drop (s + l)).length ≠ 0 := fun h => hR0 (List.length_eq_zero.mp h)
            omega
          rw [splitChar_intercalate ':' _ (by intro h; exact hR0 (by simpa using h))
              natToChars16_colonFree,
            show (([[]] : List (List Char)) ++ [] :: (gs.drop (s + l)).map (natToChars 16)) =
              [] :: [] :: (gs.drop (s + l)).map (natToChars 16) from rfl,
            parseV6Toks_leading, if_neg map_natToChars_ne_single_nil,
            mapM_parseHexGroup hRmem, Option.some_bind,
            if_pos (show 1 ≤ (gs.drop (s + l)).length ∧ (gs.drop (s + l)).length ≤ 7 by
              rw [hRlen]
              exact ⟨by omega, by omega⟩)]
          simp only [expandGroups, List.length_nil, List.nil_append]
          rw [hRlen, show 8 - (8 - (s + l)) = l by omega]
          conv_rhs => rw [hrecon, hLnil]
          rw [List.nil_append]
      · have hLne : gs.take s ≠ [] := by
          intro h
          rw [h] at hLlen
          simp only [List.length_nil] at hLlen
          omega
        rw [splitChar_intercalate ':' _ (by intro h; exact hLne (by simpa using h))
          natToChars16_colonFree]
        by_cases hR0 : gs.drop (s + l) = []
        · have hsl8 : s + l = 8 := by
            rw [hR0] at hRlen
            simp only [List.length_nil] at hRlen
            omega
          rw [hR0]
          simp only [List.map_nil]
          rw [show intercalateChar ':' ([] : List (List Char)) = [] from rfl,
            show splitChar ':' ([] : List Char) = [[]] from rfl,
            parseV6Toks_split (by intro h; exact hLne (by simpa using h)) (by
              intro t ht
              obtain ⟨g, _, rfl⟩ := List.mem_map.mp ht
              exact natToChars_ne_nil (by omega)),
            mapM_parseHexGroup hLmem, Option.some_bind, if_pos rfl,
            if_pos (show 1 ≤ (gs.take s).length ∧ (gs.take s).length ≤ 7 by
              rw [hLlen]
              exact ⟨by omega, by omega⟩)]
          simp only [expandGroups, List.length_nil, List.append_nil]
          rw [hLlen, show 8 - s - 0 = l by omega]
          conv_rhs => rw [hrecon, hR0]
          rw [List.append_nil]
        · have hslt : s + l < 8 := by
            have hR1 : (gs.drop (s + l)).length ≠ 0 := fun h => hR0 (List.length_eq_zero.mp h)
            omega
          rw [splitChar_intercalate ':' _ (by intro h; exact hR0 (by simpa using h))
              natToChars16_colonFree,
            parseV6Toks_split (by intro h; exact hLne (by simpa using h)) (by
              intro t ht
              obtain ⟨g, _, rfl⟩ := List.mem_map.mp ht
              exact natToChars_ne_nil (by omega)),
            mapM_parseHexGroup hLmem, Option.some_bind,
            if_neg map_natToChars_ne_single_nil,
            mapM_parseHexGroup hRmem, Option.some_bind,
            if_pos (show 1 ≤ (gs.take s).length ∧ 1 ≤ (gs.drop (s + l)).length ∧
                (gs.take s).length + (gs.drop (s + l)).length ≤ 7 by
              rw [hLlen, hRlen]
              exact ⟨by omega, by omega, by omega⟩)]
          simp only [expandGroups]
          rw [hLlen, hRlen, show 8 - s - (8 - (s + l)) = l by omega, List.append_assoc]
          conv_rhs => rw [hrecon]

theorem parseIPv6_renderGroups {gs : List Nat} (h8 : gs.length = 8)
    (hlt : ∀ g ∈ gs, g < 65536) :
    parseIPv6 (renderGroups gs) = some ((gs.map groupBytes).flatten) := by
  rw [parseIPv6, parseV6Toks_renderGroups h8 hlt]
  rfl

/-! ## Round trip of the whole address codec -/

/-- Standard big-endian recombination of a byte sequence into a number. -/
def beBytesToNat (bs : List Nat) : Nat :=
  bs.foldl (fun acc b => acc * 256 + b) 0

theorem netIPString_of_ipTo4 {p q : List Nat} (h : ipTo4 p = some q) (hne : p.length ≠ 0) :
    netIPString p = String.mk (dottedDecimal q) := by
  rw [netIPString, if_neg hne, h]

theorem netIPString_v6 {p : List Nat} (h : ipTo4 p = none) (hlen : p.length = 16) :
    netIPString p = String.mk (renderGroups (ipGroups p)) := by
  rw [netIPString, if_neg (by rw [hlen]; omega), h, if_pos hlen]

theorem parseIP_dotted {cs : List Char} (h : cs.find? (fun c => c == '.' || c == ':') = some '.') :
    parseIP (String.mk cs) = (parseIPv4 cs).map v4mapped := by
  rw [parseIP, show (String.mk cs).data = cs from rfl, h]
  rfl

theorem parseIP_colon {cs : List Char} (h : cs.find? (fun c => c == '.' || c == ':') = some ':') :
    parseIP (String.mk cs) = parseIPv6 cs := by
  rw [parseIP, show (String.mk cs).data = cs from rfl, h]
  rfl

theorem mem_renderGroups {gs : List Nat} {c : Char} (hc : c ∈ renderGroups gs) :
    c = ':' ∨ ∃ d, d < 16 ∧ c = Nat.digitChar d := by
  cases hfc : findCompress gs with
  | none =>
      rw [renderGroups, hfc] at hc
      rcases mem_intercalateChar hc with rfl | ⟨p, hp, hcp⟩
      · exact Or.inl rfl
      · exact Or.inr (by
          obtain ⟨g, _, rfl⟩ := List.mem_map.mp hp
          exact mem_natToChars (by omega) (by omega) hcp)
  | some sl =>
      obtain ⟨s, l⟩ := sl
      rw [renderGroups, hfc] at hc
      rcases List.mem_append.mp hc with hc1 | hc2
      · rcases mem_intercalateChar hc1 with rfl | ⟨p, hp, hcp⟩
        · exact Or.inl rfl
        · exact Or.inr (by
            obtain ⟨g, _, rfl⟩ := List.mem_map.mp hp
            exact mem_natToChars (by omega) (by omega) hcp)
      · rcases List.mem_cons.mp hc2 with rfl | hc3
        · exact Or.inl rfl
        · rcases List.mem_cons.mp hc3 with rfl | hc4
          · exact Or.inl rfl
          · rcases mem_intercalateChar hc4 with rfl | ⟨p, hp, hcp⟩
            · exact Or.inl rfl
            · exact Or.inr (by
                obtain ⟨g, _, rfl⟩ := List.mem_map.mp hp
                exact mem_natToChars (by omega) (by omega) hcp)

theorem no_dot_renderGroups {gs : List Nat} : '.' ∉ renderGroups gs := by
  intro h
  rcases mem_renderGroups h with h1 | ⟨d, hd, h2⟩
  · exact absurd h1 (by decide)
  · exact digitChar_ne_dot hd h2.symm

theorem colon_mem_renderGroups {gs : List Nat} (h2 : 2 ≤ gs.length) :
    ':' ∈ renderGroups gs := by
  cases hfc : findCompress gs with
  | none =>
      rw [renderGroups, hfc]
      exact sep_mem_intercalateChar (by rw [List.length_map]; omega)
  | some sl =>
      obtain ⟨s, l⟩ := sl
      rw [renderGroups, hfc]
      simp

theorem dottedDecimal_chars {q : List Nat} {c : Char} (hc : c ∈ dottedDecimal q) :
    c = '.' ∨ ∃ d, d < 16 ∧ c = Nat.digitChar d := by
  rcases mem_intercalateChar hc with rfl | ⟨p, hp, hcp⟩
  · exact Or.inl rfl
  · exact Or.inr (by
      obtain ⟨g, _, rfl⟩ := List.mem_map.mp hp
      exact mem_natToChars (by omega) (by omega) hcp)

theorem no_colon_dottedDecimal {q : List Nat} : ':' ∉ dottedDecimal q := by
  intro h
  rcases dottedDecimal_chars h with h1 | ⟨d, hd, h2⟩
  · exact absurd h1 (by decide)
  · exact digitChar_ne_colon hd h2.symm

theorem dot_mem_dottedDecimal {q : List Nat} (h2 : 2 ≤ q.length) :
    '.' ∈ dottedDecimal q := by
  exact sep_mem_intercalateChar (by rw [List.length_map]; omega)

theorem natToChars10_dotFree {q : List Nat} :
    ∀ p ∈ q.map (natToChars 10), ∀ c ∈ p, c ≠ '.' := by
  intro p hp c hc
  obtain ⟨g, _, rfl⟩ := List.mem_map.mp hp
  obtain ⟨d, hd, rfl⟩ := mem_natToChars (by omega) (by omega) hc
  exact digitChar_ne_dot hd

theorem parseIPv4_dottedDecimal {q : List Nat} (h4 : q.length = 4)
    (hlt : ∀ x ∈ q, x < 256) : parseIPv4 (dottedDecimal q) = some q := by
  have hq : q ≠ [] := by
    intro h
    rw [h] at h4
    simp at h4
  rw [parseIPv4, dottedDecimal,
    splitChar_intercalate '.' _ (by intro h; exact hq (by simpa using h)) natToChars10_dotFree,
    mapM_parseDecByte hlt, Option.some_bind, if_pos h4]

theorem bytesBE8_lt {n : Nat} : ∀ x ∈ bytesBE8 n, x < 256 := by
  intro x hx
  simp only [bytesBE8, List.mem_cons, List.not_mem_nil, or_false] at hx
  rcases hx with rfl | rfl | rfl | rfl | rfl | rfl | rfl | rfl <;> omega

theorem bytesBE4_lt {n : Nat} : ∀ x ∈ bytesBE4 n, x < 256 := by
  intro x hx
  simp only [bytesBE4, List.mem_cons, List.not_mem_nil, or_false] at hx
  rcases hx with rfl | rfl | rfl | rfl <;> omega

theorem parseIP_getIPAddress_ipv6 (first last : Nat) :
    parseIP (getIPAddress (some ⟨some (.ipv6 first last)⟩)) =
      some (bytesBE8 first ++ bytesBE8 last) := by
  have hga : getIPAddress (some ⟨some (.ipv6 first last)⟩) =
      netIPString (bytesBE8 first ++ bytesBE8 last) := rfl
  have hbs : ∀ x ∈ bytesBE8 first ++ bytesBE8 last, x < 256 := by
    intro x hx
    rcases List.mem_append.mp hx with h | h
    · exact bytesBE8_lt x h
    · exact bytesBE8_lt x h
  have hlen : (bytesBE8 first ++ bytesBE8 last).length = 16 := by
    simp [bytesBE8]
  by_cases hC : (bytesBE8 first ++ bytesBE8 last).length = 16 ∧
      ((bytesBE8 first ++ bytesBE8 last).take 10).all (· = 0) ∧
      (bytesBE8 first ++ bytesBE8 last).getD 10 0 = 255 ∧
      (bytesBE8 first ++ bytesBE8 last).getD 11 0 = 255
  · have hipTo4 : ipTo4 (bytesBE8 first ++ bytesBE8 last) =
        some ((bytesBE8 first ++ bytesBE8 last).drop 12) := by
      rw [ipTo4, if_neg (by rw [hlen]; omega), if_pos hC]
    rw [hga, netIPString_of_ipTo4 hipTo4 (by rw [hlen]; omega)]
    have hdrop : (bytesBE8 first ++ bytesBE8 last).drop 12 =
        [last / 2 ^ 24 % 256, last / 2 ^ 16 % 256, last / 2 ^ 8 % 256, last % 256] := rfl
    rw [parseIP_dotted (by
      apply find?_eq_dot
      · rw [hdrop]
        exact dot_mem_dottedDecimal (by simp)
      · exact no_colon_dottedDecimal)]
    rw [hdrop, parseIPv4_dottedDecimal (by simp) (by
      intro x hx
      simp only [List.mem_cons, List.not_mem_nil, or_false] at hx
      rcases hx with rfl | rfl | rfl | rfl <;> omega)]
    obtain ⟨-, hall, h10, h11⟩ := hC
    have htake : (bytesBE8 first ++ bytesBE8 last).take 10 =
        [first / 2 ^ 56 % 256, first / 2 ^ 48 % 256, first / 2 ^ 40 % 256, first / 2 ^ 32 % 256,
         first / 2 ^ 24 % 256, first / 2 ^ 16 % 256, first / 2 ^ 8 % 256, first % 256,
         last / 2 ^ 56 % 256, last / 2 ^ 48 % 256] := rfl
    rw [htake] at hall
    simp only [List.all_cons, List.all_nil, Bool.and_eq_true, decide_eq_true_eq,
      and_true] at hall
    have h10e : (bytesBE8 first ++ bytesBE8 last).getD 10 0 = last / 2 ^ 40 % 256 := rfl
    have h11e : (bytesBE8 first ++ bytesBE8 last).getD 11 0 = last / 2 ^ 32 % 256 := rfl
    rw [h10e] at h10
    rw [h11e] at h11
    simp only [Option.map_some']
    rw [v4mapped]
    simp only [bytesBE8, List.cons_append, List.nil_append, Option.some_inj,
      List.cons.injEq, and_true]
    omega
  · have hipTo4 : ipTo4 (bytesBE8 first ++ bytesBE8 last) = none := by
      rw [ipTo4, if_neg (by rw [hlen]; omega), if_neg hC]
    rw [hga, netIPString_v6 hipTo4 hlen]
    have hglen : (ipGroups (bytesBE8 first ++ bytesBE8 last)).length = 8 := by
      rw [ipGroups_length, hlen]
    have hglt := ipGroups_lt _ hbs
    rw [parseIP_colon (by
      apply find?_eq_colon
      · exact colon_mem_renderGroups (by rw [hglen]; omega)
      · exact no_dot_renderGroups)]
    rw [parseIPv6_renderGroups hglen hglt, ipGroups_flatten _ (by rw [hlen]) hbs]

theorem parseIP_getIPAddress_ipv4 {n : Nat} (h0 : n ≠ 0) (hlt : n < 2 ^ 32) :
    parseIP (getIPAddress (some ⟨some (.ipv4 n)⟩)) = some (v4mapped (bytesBE4 n)) ∧
      beBytesToNat (bytesBE4 n) = n := by
  constructor
  · have hga : getIPAddress (some ⟨some (.ipv4 n)⟩) =
        netIPString (if n ≠ 0 then bytesBE4 n else []) := rfl
    rw [hga, if_pos h0]
    have hipTo4 : ipTo4 (bytesBE4 n) = some (bytesBE4 n) := by
      rw [ipTo4, if_pos (by simp [bytesBE4])]
    rw [netIPString_of_ipTo4 hipTo4 (by simp [bytesBE4])]
    rw [parseIP_dotted (find?_eq_dot (dot_mem_dottedDecimal (by simp [bytesBE4]))
      no_colon_dottedDecimal)]
    rw [parseIPv4_dottedDecimal (by simp [bytesBE4]) bytesBE4_lt]
    rfl
  · rw [beBytesToNat, bytesBE4]
    simp only [List.foldl_cons, List.foldl_nil]
    omega

/-! ## Statement helpers for the line-renderer claims -/

/-- The response-init line of `renderTapEvent` with the printed latency
value abstracted, following the `rsp` format string of the source. -/
def responseInitLine (event : TapEvent) (resource : String) (ri : TapEvent_Http_ResponseInit)
    (latencyMicros : Int) : String :=
  "rsp id=" ++ toString (getBase ri.id) ++ ":" ++ toString (getStream ri.id) ++ " " ++
    flowString event ++ " :status=" ++ toString ri.httpStatus ++
    " latency=" ++ toString latencyMicros ++ "µs" ++ resourcesString event resource

/-- The response-end line of `renderTapEvent` with the status clause
abstracted, following the `end` format strings of the source. -/
def responseEndLine (event : TapEvent) (resource : String) (re : TapEvent_Http_ResponseEnd)
    (statusClause : String) : String :=
  "end id=" ++ toString (getBase re.id) ++ ":" ++ toString (getStream re.id) ++ " " ++
    flowString event ++ statusClause ++
    " duration=" ++ toString (Int.tdiv (getNanos re.sinceResponseInit) 1000) ++ "µs" ++
    " response-length=" ++ toString re.responseBytes ++ "B" ++ resourcesString event resource

/-- Modelled from the spec: the latency value section 4.3 prescribes for
the response-init line — the whole elapsed-since-request duration,
seconds and nanoseconds combined, truncated to whole microseconds. Stated
from the words of the spec, for comparison against the code. -/
def specLatencyMicros (d : Option Duration) : Int :=
  Int.tdiv (getSeconds d * 1000000000 + getNanos d) 1000

/-! ## Claims -/

/-- C1: for every TapEvent whose HTTP payload carries exactly one of the
three lifecycle variants, `mapPublicToDisplayTapEvent` produces a display
`tapEvent` in which exactly one of the three sub-record pointers is
non-nil, and it is the one corresponding to the carried variant. -/
theorem C1_classifier_exactly_one (event : TapEvent) (hv : TapEvent_Http_Event)
    (h : getHttpEvent event = some hv) :
    ((mapPublicToDisplayTapEvent event).RequestInitEvent.isSome ↔
      ∃ r, hv = TapEvent_Http_Event.requestInit r) ∧
    ((mapPublicToDisplayTapEvent event).ResponseInitEvent.isSome ↔
      ∃ r, hv = TapEvent_Http_Event.responseInit r) ∧
    ((mapPublicToDisplayTapEvent event).ResponseEndEvent.isSome ↔
      ∃ r, hv = TapEvent_Http_Event.responseEnd r) := by
  obtain ⟨so, de, sm, dm, rm, pd, http⟩ := event
  cases http with
  | none => simp [getHttpEvent] at h
  | some ho =>
      obtain ⟨ev⟩ := ho
      have hev : ev = some hv := by simpa [getHttpEvent] using h
      subst hev
      cases hv <;>
        simp [mapPublicToDisplayTapEvent, getRequestInitEvent, getRequestInit,
          getResponseInitEvent, getResponseInit, getResponseEndEvent, getResponseEnd]

/-- A concrete RequestInit TapEvent used by witnesses. -/
def sampleRequestEvent : TapEvent :=
  { source := some ⟨some ⟨some (.ipv4 167772161)⟩, 80⟩
    destination := some ⟨some ⟨some (.ipv4 167772162)⟩, 8080⟩
    sourceMeta := none
    destinationMeta := none
    routeMeta := none
    proxyDirection := .INBOUND
    http := some ⟨some (.requestInit ⟨some ⟨1, 2⟩, some ⟨some (.registered .GET)⟩,
      some ⟨some (.registered .HTTP)⟩, "example.com", "/x"⟩)⟩ }

/-- The lifecycle payload carried by `sampleRequestEvent`. -/
def sampleRequestPayload : TapEvent_Http_Event :=
  .requestInit ⟨some ⟨1, 2⟩, some ⟨some (.registered .GET)⟩,
    some ⟨some (.registered .HTTP)⟩, "example.com", "/x"⟩

/-- The hypotheses and conclusion of C1 at a concrete RequestInit event. -/
theorem C1_classifier_exactly_one_witness :
    getHttpEvent sampleRequestEvent = some sampleRequestPayload ∧
    (((mapPublicToDisplayTapEvent sampleRequestEvent).RequestInitEvent.isSome ↔
        ∃ r, sampleRequestPayload = TapEvent_Http_Event.requestInit r) ∧
      ((mapPublicToDisplayTapEvent sampleRequestEvent).ResponseInitEvent.isSome ↔
        ∃ r, sampleRequestPayload = TapEvent_Http_Event.responseInit r) ∧
      ((mapPublicToDisplayTapEvent sampleRequestEvent).ResponseEndEvent.isSome ↔
        ∃ r, sampleRequestPayload = TapEvent_Http_Event.responseEnd r)) :=
  ⟨rfl, C1_classifier_exactly_one sampleRequestEvent sampleRequestPayload rfl⟩

/-- The amended C2: in the response-init line the printed `latency` value
is the nanoseconds component of the elapsed-since-request duration
divided by 1000 (truncating), ignoring the seconds component. -/
theorem C2_latency_is_nanos_component (event : TapEvent) (resource : String)
    (ri : TapEvent_Http_ResponseInit)
    (h : getHttpEvent event = some (.responseInit ri)) :
    renderTapEvent event resource =
      responseInitLine event resource ri (Int.tdiv (getNanos ri.sinceRequestInit) 1000) := by
  rw [renderTapEvent, h, responseInitLine]

/-- The hypotheses and conclusion of the amended C2 at a concrete event. -/
theorem C2_latency_is_nanos_component_witness :
    getHttpEvent
        { source := none, destination := none, sourceMeta := none, destinationMeta := none,
          routeMeta := none, proxyDirection := .INBOUND,
          http := some ⟨some (.responseInit ⟨some ⟨1, 2⟩, some ⟨1, 500⟩, 200⟩)⟩ } =
      some (.responseInit ⟨some ⟨1, 2⟩, some ⟨1, 500⟩, 200⟩) ∧
    renderTapEvent
        { source := none, destination := none, sourceMeta := none, destinationMeta := none,
          routeMeta := none, proxyDirection := .INBOUND,
          http := some ⟨some (.responseInit ⟨some ⟨1, 2⟩, some ⟨1, 500⟩, 200⟩)⟩ } "" =
      responseInitLine
        { source := none, destination := none, sourceMeta := none, destinationMeta := none,
          routeMeta := none, proxyDirection := .INBOUND,
          http := some ⟨some (.responseInit ⟨some ⟨1, 2⟩, some ⟨1, 500⟩, 200⟩)⟩ } ""
        ⟨some ⟨1, 2⟩, some ⟨1, 500⟩, 200⟩
        (Int.tdiv (getNanos (some ⟨1, 500⟩)) 1000) :=
  ⟨rfl, C2_latency_is_nanos_component _ "" _ rfl⟩

/-- C2 as stated is false: for a ResponseInit event whose
elapsed-since-request duration is 1 second and 500 nanoseconds, the code
prints `latency=0µs` (only the nanoseconds component divided by 1000),
while the whole duration truncated to microseconds is 1000000. -/
theorem C2_counterexample :
    renderTapEvent
        { source := none, destination := none, sourceMeta := none, destinationMeta := none,
          routeMeta := none, proxyDirection := .INBOUND,
          http := some ⟨some (.responseInit ⟨some ⟨1, 2⟩, some ⟨1, 500⟩, 200⟩)⟩ } "" =
      responseInitLine
        { source := none, destination := none, sourceMeta := none, destinationMeta := none,
          routeMeta := none, proxyDirection := .INBOUND,
          http := some ⟨some (.responseInit ⟨some ⟨1, 2⟩, some ⟨1, 500⟩, 200⟩)⟩ } ""
        ⟨some ⟨1, 2⟩, some ⟨1, 500⟩, 200⟩ 0 ∧
    specLatencyMicros (some ⟨1, 500⟩) = 1000000 ∧
    ¬(renderTapEvent
        { source := none, destination := none, sourceMeta := none, destinationMeta := none,
          routeMeta := none, proxyDirection := .INBOUND,
          http := some ⟨some (.responseInit ⟨some ⟨1, 2⟩, some ⟨1, 500⟩, 200⟩)⟩ } "" =
      responseInitLine
        { source := none, destination := none, sourceMeta := none, destinationMeta := none,
          routeMeta := none, proxyDirection := .INBOUND,
          http := some ⟨some (.responseInit ⟨some ⟨1, 2⟩, some ⟨1, 500⟩, 200⟩)⟩ } ""
        ⟨some ⟨1, 2⟩, some ⟨1, 500⟩, 200⟩
        (specLatencyMicros (some ⟨1, 500⟩))) := by
  refine ⟨by decide, by decide, by decide⟩

/-- The amended C3: when neither an IPv6 pair nor a nonzero IPv4 value is
present, `getIPAddress` never fails but produces the Go nil-IP text
`<nil>` (the empty byte sequence formatted by `net.IP.String`). -/
theorem C3_absent_address_renders_nil (ip : Option IPAddress)
    (h6 : getIpv6 ip = none) (h4 : getIpv4 ip = 0) :
    getIPAddress ip = "<nil>" := by
  rw [getIPAddress, h6, h4]
  simp [netIPString]

/-- The hypotheses and conclusion of the amended C3 at the nil address. -/
theorem C3_absent_address_renders_nil_witness :
    getIpv6 none = none ∧ getIpv4 none = 0 ∧ getIPAddress none = "<nil>" :=
  ⟨rfl, rfl, C3_absent_address_renders_nil none rfl rfl⟩

/-- C3 as stated is false: with both address families absent the Address
Codec produces `<nil>`, not the empty string. -/
theorem C3_counterexample :
    getIPAddress none = "<nil>" ∧ getIPAddress (some ⟨some (.ipv4 0)⟩) = "<nil>" ∧
      ¬(getIPAddress none = "") := by
  refine ⟨by decide, by decide, by decide⟩

/-- C4: compact-mode rendering of the given RequestInit event is exactly
the expected line. -/
theorem C4_compact_request_line :
    renderTapEvent
        { source := some ⟨some ⟨some (.ipv4 167772161)⟩, 80⟩
          destination := some ⟨some ⟨some (.ipv4 167772162)⟩, 8080⟩
          sourceMeta := none
          destinationMeta := none
          routeMeta := none
          proxyDirection := .INBOUND
          http := some ⟨some (.requestInit ⟨some ⟨1, 2⟩, some ⟨some (.registered .GET)⟩,
            some ⟨some (.registered .HTTP)⟩, "example.com", "/x"⟩)⟩ }
        "" =
      "req id=1:2 proxy=in  src=10.0.0.1:80 dst=10.0.0.2:8080 tls= :method=GET :authority=example.com :path=/x" := by
  decide

/-- C5: the line renderer distinguishes the three end-of-stream outcomes:
a gRPC status yields a ` grpc-status=<name>` clause, a reset error yields
a ` reset-error=<code>` clause, and with neither present the status
clause is omitted entirely while the `duration` and `response-length`
fields are still rendered. -/
theorem C5_response_end_outcomes (event : TapEvent) (resource : String)
    (re : TapEvent_Http_ResponseEnd)
    (h : getHttpEvent event = some (.responseEnd re)) :
    (∀ c, getEosEnd re.eos = some (.grpcStatusCode c) →
      renderTapEvent event resource =
        responseEndLine event resource re (" grpc-status=" ++ codeName c)) ∧
    (∀ c, getEosEnd re.eos = some (.resetErrorCode c) →
      renderTapEvent event resource =
        responseEndLine event resource re (" reset-error=" ++ toString c)) ∧
    (getEosEnd re.eos = none →
      renderTapEvent event resource = responseEndLine event resource re "") := by
  refine ⟨?_, ?_, ?_⟩
  · intro c hc
    rw [renderTapEvent, h]
    simp only [hc, responseEndLine]
    simp [String.append_assoc]
  · intro c hc
    rw [renderTapEvent, h]
    simp only [hc, responseEndLine]
    simp [String.append_assoc]
  · intro hc
    rw [renderTapEvent, h]
    simp only [hc, responseEndLine]
    simp [String.append_assoc]

/-- A concrete ResponseEnd payload ending in gRPC status 5, for the C5
witness. -/
def sampleResponseEnd : TapEvent_Http_ResponseEnd :=
  ⟨some ⟨3, 4⟩, some ⟨0, 2000000⟩, some ⟨0, 1000000⟩, 55, some ⟨some (.grpcStatusCode 5)⟩⟩

/-- A concrete ResponseEnd TapEvent, for the C5 witness. -/
def sampleEndEvent : TapEvent :=
  { source := none, destination := none, sourceMeta := none, destinationMeta := none,
    routeMeta := none, proxyDirection := .OUTBOUND,
    http := some ⟨some (.responseEnd sampleResponseEnd)⟩ }

/-- The hypotheses and the gRPC-outcome conclusion of C5 at a concrete
event. -/
theorem C5_response_end_outcomes_witness :
    getHttpEvent sampleEndEvent = some (.responseEnd sampleResponseEnd) ∧
    getEosEnd sampleResponseEnd.eos = some (.grpcStatusCode 5) ∧
    renderTapEvent sampleEndEvent "" =
      responseEndLine sampleEndEvent "" sampleResponseEnd (" grpc-status=" ++ codeName 5) :=
  ⟨rfl, rfl, (C5_response_end_outcomes sampleEndEvent "" sampleResponseEnd rfl).1 5 rfl⟩

/-- C6: the Address Codec round-trips: a nonzero 32-bit IPv4 value prints
as dotted decimal that standard parsing maps back to the same bytes (in
the 16-byte IPv4-mapped form `net.ParseIP` uses) and the same 32-bit
value; an IPv6 pair prints as text that standard parsing maps back to the
same 16-byte big-endian sequence. -/
theorem C6_address_roundtrip (n first last : Nat) (hn0 : n ≠ 0) (hn : n < 2 ^ 32) :
    (parseIP (getIPAddress (some ⟨some (.ipv4 n)⟩)) = some (v4mapped (bytesBE4 n)) ∧
      beBytesToNat (bytesBE4 n) = n) ∧
    parseIP (getIPAddress (some ⟨some (.ipv6 first last)⟩)) =
      some (bytesBE8 first ++ bytesBE8 last) :=
  ⟨parseIP_getIPAddress_ipv4 hn0 hn, parseIP_getIPAddress_ipv6 first last⟩

/-- The hypotheses and conclusion of C6 at 10.0.0.1 and the IPv6 pair
(1, 2). -/
theorem C6_address_roundtrip_witness :
    (167772161 ≠ 0 ∧ 167772161 < 2 ^ 32) ∧
    ((parseIP (getIPAddress (some ⟨some (.ipv4 167772161)⟩)) =
        some (v4mapped (bytesBE4 167772161)) ∧
      beBytesToNat (bytesBE4 167772161) = 167772161) ∧
    parseIP (getIPAddress (some ⟨some (.ipv6 1 2)⟩)) = some (bytesBE8 1 ++ bytesBE8 2)) :=
  ⟨⟨by decide, by decide⟩, C6_address_roundtrip 167772161 1 2 (by decide) (by decide)⟩

/-- The `<dir>_ns=<namespace>` suffix of wide-mode resource labelling:
appended unless the resource kind itself is the namespace kind, whenever
a namespace label exists. -/
def nsSuffix (p : peer) (resourceKind : String) : String :=
  if resourceKind ≠ k8sNamespace then
    if mapHas p.labels k8sNamespace then
      " " ++ p.direction ++ "_ns=" ++ mapGet p.labels k8sNamespace
    else ""
  else ""

/-- C7: wide-mode per-peer labelling appends ` <dir>_res=<shortKind>/<name>`
when the peer has a label keyed by the resource kind (abbreviated via the
short-name table when a short form exists), else ` <dir>_pod=<pod>` when a
pod label exists, else nothing; and in every case the namespace suffix is
appended per `nsSuffix`. -/
theorem C7_wide_resource_labels (p : peer) (resourceKind : String)
    (_hk : resourceKind ≠ "") :
    (mapHas p.labels resourceKind = true →
      formatResource p resourceKind =
        " " ++ p.direction ++ "_res=" ++
          (if ShortNameFromCanonicalResourceName resourceKind ≠ "" then
            ShortNameFromCanonicalResourceName resourceKind
          else resourceKind) ++ "/" ++ mapGet p.labels resourceKind ++
          nsSuffix p resourceKind) ∧
    (mapHas p.labels resourceKind = false → mapHas p.labels k8sPod = true →
      formatResource p resourceKind =
        " " ++ p.direction ++ "_pod=" ++ mapGet p.labels k8sPod ++ nsSuffix p resourceKind) ∧
    (mapHas p.labels resourceKind = false → mapHas p.labels k8sPod = false →
      formatResource p resourceKind = nsSuffix p resourceKind) := by
  refine ⟨?_, ?_, ?_⟩
  · intro h1
    by_cases hns : resourceKind = k8sNamespace
    · subst hns
      simp [formatResource, nsSuffix, h1]
    · by_cases hhs : mapHas p.labels k8sNamespace
      · simp [formatResource, nsSuffix, h1, hns, hhs, String.append_assoc]
      · simp [formatResource, nsSuffix, h1, hns, hhs]
  · intro h1 h2
    by_cases hns : resourceKind = k8sNamespace
    · subst hns
      simp [formatResource, nsSuffix, h1, h2]
    · by_cases hhs : mapHas p.labels k8sNamespace
      · simp [formatResource, nsSuffix, h1, h2, hns, hhs, String.append_assoc]
      · simp [formatResource, nsSuffix, h1, h2, hns, hhs]
  · intro h1 h2
    by_cases hns : resourceKind = k8sNamespace
    · subst hns
      simp [formatResource, nsSuffix, h1, h2]
    · by_cases hhs : mapHas p.labels k8sNamespace
      · simp [formatResource, nsSuffix, h1, h2, hns, hhs]
      · simp [formatResource, nsSuffix, h1, h2, hns, hhs]

/-- A concrete peer with deployment, pod and namespace labels, for the C7
witness. -/
def samplePeer : peer :=
  { address := none,
    labels := some [("deployment", "web"), ("pod", "web-123"), ("namespace", "prod")],
    direction := "src" }

/-- The hypotheses and the resource-label conclusion of C7 at a concrete
peer. -/
theorem C7_wide_resource_labels_witness :
    ("deployment" : String) ≠ "" ∧
    mapHas samplePeer.labels "deployment" = true ∧
    formatResource samplePeer "deployment" =
      " " ++ samplePeer.direction ++ "_res=" ++
        (if ShortNameFromCanonicalResourceName "deployment" ≠ "" then
          ShortNameFromCanonicalResourceName "deployment"
        else "deployment") ++ "/" ++ mapGet samplePeer.labels "deployment" ++
        nsSuffix samplePeer "deployment" :=
  ⟨by decide, by decide,
    (C7_wide_resource_labels samplePeer "deployment" (by decide)).1 (by decide)⟩

/-- C8: the JSON renderer emits a key for a lifecycle sub-record exactly
when that sub-record is present; an absent sub-record contributes no key
(in particular no `null`), and `renderTapEventJSON` is the indented
rendering of exactly these fields. -/
theorem C8_json_omits_absent_subrecords (event : TapEvent) (resource : String) :
    (("requestInitEvent" ∈
        (tapEventJSONFields (mapPublicToDisplayTapEvent event)).map Prod.fst) ↔
      (mapPublicToDisplayTapEvent event).RequestInitEvent.isSome) ∧
    (("responseInitEvent" ∈
        (tapEventJSONFields (mapPublicToDisplayTapEvent event)).map Prod.fst) ↔
      (mapPublicToDisplayTapEvent event).ResponseInitEvent.isSome) ∧
    (("responseEndEvent" ∈
        (tapEventJSONFields (mapPublicToDisplayTapEvent event)).map Prod.fst) ↔
      (mapPublicToDisplayTapEvent event).ResponseEndEvent.isSome) ∧
    (∀ v, ("requestInitEvent", v) ∈ tapEventJSONFields (mapPublicToDisplayTapEvent event) →
      v ≠ JValue.null) ∧
    (∀ v, ("responseInitEvent", v) ∈ tapEventJSONFields (mapPublicToDisplayTapEvent event) →
      v ≠ JValue.null) ∧
    (∀ v, ("responseEndEvent", v) ∈ tapEventJSONFields (mapPublicToDisplayTapEvent event) →
      v ≠ JValue.null) ∧
    renderTapEventJSON event resource =
      renderJValue "" (.jobj (tapEventJSONFields (mapPublicToDisplayTapEvent event))) := by
  cases hr : (mapPublicToDisplayTapEvent event).RequestInitEvent <;>
    cases hi : (mapPublicToDisplayTapEvent event).ResponseInitEvent <;>
    cases he : (mapPublicToDisplayTapEvent event).ResponseEndEvent <;>
    refine ⟨?_, ?_, ?_, ?_, ?_, ?_, rfl⟩ <;>
    simp [tapEventJSONFields, hr, hi, he, requestInitEventToJValue,
      responseInitEventToJValue, responseEndEventToJValue]

/-- One step and one termination equation of the stream consumer loop:
every event is rendered and written in order, then the terminal signal
either ends the loop silently (end-of-input) or prints the failure to
stderr and ends the loop; either way no error is returned. -/
theorem renderTapEventsLoop_spec (render : TapEvent → String → String) (resource : String)
    (ending : StreamEnding) :
    ∀ (events : List TapEvent) (w : Writer) (stderr : List String),
      renderTapEventsLoop render resource ending events w stderr =
        ({ buffered := w.buffered ++ events.map (fun e => render e resource),
           flushed := w.flushed },
         stderr ++ (match ending with | .eofSignal => [] | .failure msg => [msg]), none) := by
  intro events
  induction events with
  | nil =>
      intro w stderr
      cases ending <;> simp [renderTapEventsLoop]
  | cons e rest ih =>
      intro w stderr
      rw [renderTapEventsLoop, ih]
      simp [wFprintln]

/-- C9: the stream consumer loop returns no error on both terminal
signals: on end-of-input nothing is reported to stderr, on a decode
failure the failure is reported to stderr; every line rendered before
termination is preserved in order, and the driver then flushes the
buffer and returns no error. -/
theorem C9_stream_loop_termination (s : ByteStream)
    (render : TapEvent → String → String) (resource : String)
    (output resourceType : String)
    (hvalid : output = "" ∨ output = wideOutput ∨ output = jsonOutput) :
    (renderTapEvents s ⟨[], []⟩ render resource).2.2 = none ∧
    (s.ending = .eofSignal → (renderTapEvents s ⟨[], []⟩ render resource).2.1 = []) ∧
    (∀ msg, s.ending = .failure msg →
      (renderTapEvents s ⟨[], []⟩ render resource).2.1 = [msg]) ∧
    (renderTapEvents s ⟨[], []⟩ render resource).1.buffered =
      s.events.map (fun e => render e resource) ∧
    (writeTapEventsToBuffer s output resourceType).2.2 = none ∧
    (writeTapEventsToBuffer s output resourceType).1.buffered = [] ∧
    (writeTapEventsToBuffer s output resourceType).1.flushed =
      s.events.map (fun e =>
        (if output = jsonOutput then renderTapEventJSON else renderTapEvent) e
          (if output = wideOutput then resourceType else "")) := by
  have key : ∀ (render : TapEvent → String → String) (res : String),
      renderTapEvents s ⟨[], []⟩ render res =
        ({ buffered := s.events.map (fun e => render e res), flushed := [] },
         (match s.ending with | .eofSignal => ([] : List String) | .failure msg => [msg]),
         none) := by
    intro render res
    rw [renderTapEvents, renderTapEventsLoop_spec]
    simp
  refine ⟨by rw [key], ?_, ?_, by rw [key], ?_⟩
  · intro hend
    rw [key, hend]
  · intro msg hend
    rw [key, hend]
  · rw [writeTapEventsToBuffer]
    rcases hvalid with h0 | hw | hj
    · subst h0
      rw [if_pos rfl, key]
      simp [wFlush, wideOutput, jsonOutput]
    · subst hw
      rw [if_neg (by rw [wideOutput]; intro h; exact absurd h.symm (by decide)), if_pos rfl,
        key]
      simp [wFlush, wideOutput, jsonOutput]
    · subst hj
      rw [if_neg (by rw [jsonOutput]; intro h; exact absurd h.symm (by decide)),
        if_neg (by rw [jsonOutput, wideOutput]; decide), if_pos rfl, key]
      simp [wFlush, wideOutput, jsonOutput]

/-- The implications of C9 discharged at a concrete failing stream. -/
theorem C9_stream_loop_termination_witness :
    (renderTapEvents ⟨[sampleRequestEvent], .failure "decode error"⟩ ⟨[], []⟩
        renderTapEvent "").2.2 = none ∧
    (renderTapEvents ⟨[sampleRequestEvent], .failure "decode error"⟩ ⟨[], []⟩
        renderTapEvent "").2.1 = ["decode error"] ∧
    (writeTapEventsToBuffer ⟨[sampleRequestEvent], .failure "decode error"⟩ "" "").1.flushed =
      [renderTapEvent sampleRequestEvent ""] := by
  obtain ⟨h1, h2, h3, h4, h5, h6, h7⟩ :=
    C9_stream_loop_termination ⟨[sampleRequestEvent], .failure "decode error"⟩
      renderTapEvent "" "" "" (Or.inl rfl)
  exact ⟨h1, h3 "decode error" rfl, by rw [h7]; rfl⟩

/-- C10: the display sub-record of a ResponseEnd event carries the gRPC
code when the outcome is a gRPC status and 0 otherwise, the reset code
when the outcome is a reset error and 0 otherwise — never both nonzero —
and a gRPC outcome with status 0 produces the same display record and the
same JSON document as an event carrying no end-of-stream detail. -/
theorem C10_response_end_codes (re : TapEvent_Http_ResponseEnd)
    (so de : Option TcpAddress) (sm dm rm : Option TapEvent_EndpointMeta)
    (pd : TapEvent_ProxyDirection) (i : Option streamID) (s1 s2 : Option Duration) (rb : Nat) :
    (∃ dv, getResponseEndEvent (some ⟨some (.responseEnd re)⟩) = some dv ∧
      (∀ c, getEosEnd re.eos = some (.grpcStatusCode c) →
        dv.GrpcStatusCode = c ∧ dv.ResetErrorCode = 0) ∧
      (∀ c, getEosEnd re.eos = some (.resetErrorCode c) →
        dv.GrpcStatusCode = 0 ∧ dv.ResetErrorCode = c) ∧
      (getEosEnd re.eos = none → dv.GrpcStatusCode = 0 ∧ dv.ResetErrorCode = 0) ∧
      ¬(dv.GrpcStatusCode ≠ 0 ∧ dv.ResetErrorCode ≠ 0)) ∧
    getResponseEndEvent
        (some ⟨some (.responseEnd { re with eos := some ⟨some (.grpcStatusCode 0)⟩ })⟩) =
      getResponseEndEvent (some ⟨some (.responseEnd { re with eos := none })⟩) ∧
    renderTapEventJSON
        ⟨so, de, sm, dm, rm, pd,
          some ⟨some (.responseEnd { re with eos := some ⟨some (.grpcStatusCode 0)⟩ })⟩⟩ "" =
      renderTapEventJSON
        ⟨so, de, sm, dm, rm, pd, some ⟨some (.responseEnd { re with eos := none })⟩⟩ "" ∧
    responseEndEventToJValue ⟨i, s1, s2, rb, 0, 0⟩ =
      .jobj [("id", streamIDToJValue i), ("sinceRequestInit", durationToJValue s1),
        ("sinceResponseInit", durationToJValue s2), ("responseBytes", .jnum rb)] := by
  refine ⟨⟨_, rfl, ?_, ?_, ?_, ?_⟩, rfl, rfl, by simp [responseEndEventToJValue]⟩
  · intro c hc
    cases heos : re.eos with
    | none => rw [heos] at hc; simp [getEosEnd] at hc
    | some eo =>
        obtain ⟨ee⟩ := eo
        rw [heos] at hc
        simp only [getEosEnd, Option.some_bind] at hc
        subst hc
        exact ⟨rfl, rfl⟩
  · intro c hc
    cases heos : re.eos with
    | none => rw [heos] at hc; simp [getEosEnd] at hc
    | some eo =>
        obtain ⟨ee⟩ := eo
        rw [heos] at hc
        simp only [getEosEnd, Option.some_bind] at hc
        subst hc
        exact ⟨rfl, rfl⟩
  · intro hc
    cases heos : re.eos with
    | none => exact ⟨rfl, rfl⟩
    | some eo =>
        obtain ⟨ee⟩ := eo
        rw [heos] at hc
        simp only [getEosEnd, Option.some_bind] at hc
        subst hc
        exact ⟨rfl, rfl⟩
  · rintro ⟨hg, hrr⟩
    cases heos : re.eos with
    | none =>
        rw [heos] at hg
        exact hg rfl
    | some eo =>
        obtain ⟨ee⟩ := eo
        rw [heos] at hg hrr
        cases ee with
        | none => exact hg rfl
        | some v =>
            cases v with
            | grpcStatusCode c2 => exact hrr rfl
            | resetErrorCode c2 => exact hg rfl

/-- The implications of C10 discharged at a concrete gRPC-status event. -/
theorem C10_response_end_codes_witness :
    getResponseEndEvent (some ⟨some (.responseEnd sampleResponseEnd)⟩) =
      some ⟨some ⟨3, 4⟩, some ⟨0, 2000000⟩, some ⟨0, 1000000⟩, 55, 5, 0⟩ ∧
    getEosEnd sampleResponseEnd.eos = some (.grpcStatusCode 5) := by
  obtain ⟨⟨dv, hdv, hg, _, _, _⟩, -, -, -⟩ :=
    C10_response_end_codes sampleResponseEnd none none none none none .OUTBOUND none none
      none 0
  refine ⟨?_, rfl⟩
  obtain ⟨hg5, hr0⟩ := hg 5 rfl
  rw [hdv]
  have : dv = ⟨some ⟨3, 4⟩, some ⟨0, 2000000⟩, some ⟨0, 1000000⟩, 55, 5, 0⟩ := by
    have h0 : getResponseEndEvent (some ⟨some (.responseEnd sampleResponseEnd)⟩) =
        some ⟨some ⟨3, 4⟩, some ⟨0, 2000000⟩, some ⟨0, 1000000⟩, 55, 5, 0⟩ := by decide
    rw [h0] at hdv
    injection hdv with h
    exact h.symm
  rw [this]

end Tap
